import Mathlib

/-!
Verification of the HBnB part2 core (domain models, in-memory repository,
facade) against its specification.

The definitions below are a shallow embedding of the Python sources:

- `src/part2/app/models/base.py`        (`BaseModel.__init__`, `BaseModel.update`)
- `src/part2/app/models/user.py`        (`User.__init__`, `_validate_email`, `_validate_password`)
- `src/part2/hbnb/app/models/place.py`  (`Place.__init__`, `add_amenity_id`)
- `src/part2/hbnb/app/models/review.py` (`Review.__init__`)
- `src/part2/hbnb/app/models/amenity.py` (`Amenity.__init__`)
- `src/part2/hbnb/app/persistence/repository.py` (`InMemoryRepository`)
- `src/part2/hbnb/app/services/facade.py` (`HBnBFacade`)

Python dynamic values are modelled by `Value`; payload dictionaries by
association lists with unique keys; raised exceptions by `Except PyError`;
`datetime.now()` by an external read-only clock stream `ts : Nat → Nat`
consumed one tick per call; `uuid.uuid4()` by an idealized fresh supply
`uuidOf nextId` (random 128-bit ids modelled as a fresh injective supply,
the standard idealization of uuid4 uniqueness).

Facade operations take the whole system state `Sys` and return
`Except PyError α × Sys`: the state is returned also on the error path,
because a Python exception does not roll back mutations already made to
stored (aliased) objects.
-/

/-- A Python runtime value, as found in request payload dictionaries and
in entity attributes (attributes can hold arbitrary values because
`BaseModel.update` assigns via `setattr` without validation).
Python floats are modelled by `Rat`; no claim below depends on binary
floating-point rounding. -/
inductive Value where
  | str (s : String)
  | int (n : Int)
  | float (q : Rat)
  | bool (b : Bool)
  | none
  | list (vs : List Value)

/-- The two Python exception kinds raised by the validators, plus KeyError
for a missing mandatory dictionary key (`data["k"]`). -/
inductive PyError where
  | typeErr (msg : String)
  | valueErr (msg : String)
  | keyErr (msg : String)
deriving DecidableEq

/-- A Python dict with string keys, in insertion order. -/
abbrev Dict := List (String × Value)

/-- `d[k]` as an option (`None`-free lookup, first matching key). -/
def dGet (d : Dict) (k : String) : Option Value :=
  (d.find? (fun kv => kv.1 == k)).map (fun kv => kv.2)

/-- `k in d`. -/
def dHas (d : Dict) (k : String) : Bool :=
  d.any (fun kv => kv.1 == k)

/-- `d[k] = v` for a key already present: replaces the stored value,
leaving the key set unchanged (Python dict assignment). -/
def dSet (d : Dict) (k : String) (v : Value) : Dict :=
  d.map (fun kv => if kv.1 == k then (k, v) else kv)

/-- Python `x == s` for a string literal `s`: true only for an equal
string (Python never equates strings with non-strings). -/
def valueEqStr (v : Value) (a : String) : Bool :=
  match v with
  | .str u => u == a
  | _ => false

/-- Python numeric value of an int or float (bools are dispatched
separately by the sources via `type(x) is bool`). -/
def numVal : Value → Option Rat
  | .int n => some (n : Rat)
  | .float q => some q
  | _ => Option.none

/-! ## uuid4 supply

`uuid.uuid4()` returns a random 128-bit UUID rendered as 32 lowercase hex
digits in 8-4-4-4-12 form.  It is modelled as `uuidOf n` for a fresh
counter `n`: the canonical rendering of `n` as such a string. -/

def hexDigitChars : List Char := "0123456789abcdef".data

def hexChar (k : Nat) : Char := hexDigitChars.getD k '0'

def ofHexChar (c : Char) : Nat :=
  if c.isDigit then c.toNat - 48 else c.toNat - 87

/-- The 32 hex digits of `n`, most significant first. -/
def hex32 (n : Nat) : List Char :=
  (List.range 32).map fun i => hexChar (n / 16 ^ (32 - 1 - i) % 16)

/-- Hyphenation into the canonical 8-4-4-4-12 UUID shape. -/
def uuidChars (n : Nat) : List Char :=
  (hex32 n).take 8 ++ '-' ::
    (((hex32 n).drop 8).take 4 ++ '-' ::
      (((hex32 n).drop 12).take 4 ++ '-' ::
        (((hex32 n).drop 16).take 4 ++ '-' :: (hex32 n).drop 20)))

def uuidOf (n : Nat) : String := ⟨uuidChars n⟩

def unhexList (l : List Char) : Nat :=
  l.foldl (fun a c => 16 * a + ofHexChar c) 0

/-- Inverse of `uuidOf` on the 128-bit range (used to prove freshness of
the id supply). -/
def uuidDecode (s : String) : Nat :=
  unhexList (s.data.filter (fun c => c != '-'))

/-! ## Python string helpers used by the validators

All of these are written directly on `List Char` with structural
recursion (the corresponding Lean core `String` functions compile to
loops the kernel cannot evaluate). -/

def isHexDig (c : Char) : Bool :=
  c.isDigit || (97 ≤ c.toNat && c.toNat ≤ 102) || (65 ≤ c.toNat && c.toNat ≤ 70)

def isBraceChar (c : Char) : Bool :=
  c == '\x7b' || c == '\x7d'

/-- The whitespace set of Python `str.strip()` and of the regex class. -/
def isPySpace (c : Char) : Bool :=
  " \t\n\r\x0b\x0c".data.contains c

/-- Python `s.strip()` on the character list. -/
def pyStripL (l : List Char) : List Char :=
  ((l.dropWhile isPySpace).reverse.dropWhile isPySpace).reverse

/-- Python `s.strip()`. -/
def pyStrip (s : String) : String := ⟨pyStripL s.data⟩

/-- ASCII `str.lower()` (the sources only feed it ASCII emails). -/
def lowerChar (c : Char) : Char :=
  if 'A' ≤ c && c ≤ 'Z' then Char.ofNat (c.toNat + 32) else c

/-- Python `s.lower()`. -/
def pyLower (s : String) : String := ⟨s.data.map lowerChar⟩

/-- Python `s.strip(braces)`: removes leading and trailing braces. -/
def stripBraceEnds (l : List Char) : List Char :=
  ((l.dropWhile isBraceChar).reverse.dropWhile isBraceChar).reverse

/-- Fuel-driven worker for `removePat` (the fuel, initially the list
length, makes the recursion structural). -/
def removePatGo (pat : List Char) : Nat → List Char → List Char
  | _, [] => []
  | 0, l => l
  | fuel + 1, c :: rest =>
    if pat.isPrefixOf (c :: rest) then removePatGo pat fuel (rest.drop (pat.length - 1))
    else c :: removePatGo pat fuel rest

/-- Python `s.replace(pat, "")`: delete all (left-to-right,
non-overlapping) occurrences of a non-empty pattern. -/
def removePat (pat : List Char) (l : List Char) : List Char :=
  removePatGo pat l.length l

/-- Python `s.split(sep)` for a one-character separator. -/
def splitOnChar (sep : Char) : List Char → List (List Char)
  | [] => [[]]
  | c :: rest =>
    match splitOnChar sep rest with
    | [] => [[c]]
    | h :: t => if c == sep then [] :: h :: t else (c :: h) :: t

/-- Acceptance of `uuid.UUID(s)` (CPython: drop `urn:` and `uuid:`,
strip surrounding braces, drop hyphens, require exactly 32 hex digits).
The exotic leniencies of `int(s, 16)` (surrounding whitespace, a sign,
inner underscores) are not modelled; no claim exercises them. -/
def pyUuidOk (s : String) : Bool :=
  let h := (stripBraceEnds (removePat "uuid:".data (removePat "urn:".data s.data))).filter
    (fun c => c != '-')
  h.length == 32 && h.all isHexDig

/-- `User._validate_email` (part2/app/models/user.py): lowercase + trim,
exactly one at-sign, non-empty local part, non-empty domain containing a
dot and not starting or ending with one.  Returns the normalized email. -/
def validEmailCtor (email : String) : Except PyError String :=
  let e := (pyStripL email.data).map lowerChar
  if e.count '@' ≠ 1 then
    .error (.valueErr "Email must be valid: it must contain an at sign")
  else
    match splitOnChar '@' e with
    | [lp, dp] =>
      if lp = [] ∨ dp = [] ∨ ¬ dp.contains '.' ∨ dp.head? = some '.' ∨
          dp.getLast? = some '.' then
        .error (.valueErr "Email must be valid")
      else .ok ⟨e⟩
    | _ => .error (.valueErr "Email must be valid")

/-- `User._validate_password`: at least 6 characters, one digit, one
uppercase letter. -/
def validPasswordCtor (pw : String) : Except PyError String :=
  if pw.data.length < 6 then
    .error (.valueErr "Password is too short: it must contain at least 6 characters")
  else if ¬ pw.data.any Char.isDigit then
    .error (.valueErr "Password must contain at least one digit")
  else if ¬ pw.data.any Char.isUpper then
    .error (.valueErr "Password must contain at least one uppercase letter")
  else .ok pw

/-- The regex `^[^@\s]+@[^@\s]+\.[^@\s]+$` used by `update_user`:
a full match is a non-empty whitespace-free local part, one at-sign, and
a whitespace-free remainder containing a dot with at least one character
on each side. -/
def emailRegexOk (s : String) : Bool :=
  match splitOnChar '@' s.data with
  | [a, b] =>
    (!a.isEmpty) && a.all (fun c => !isPySpace c) &&
      b.all (fun c => !isPySpace c) &&
      (List.range b.length).any
        (fun i => decide (1 ≤ i) && decide (i + 2 ≤ b.length) && (b.getD i ' ' == '.'))
  | _ => false

/-- `_validate_uuid(value, field)` (part2/app/models/review.py, shared by
the model classes): TypeError for a non-string, ValueError when
`uuid.UUID(value)` rejects. -/
def validateUuidVal (v : Value) (tmsg vmsg : String) : Except PyError Unit :=
  match v with
  | .str a => if pyUuidOk a then .ok () else .error (.valueErr vmsg)
  | _ => .error (.typeErr tmsg)

/-! ## Entities

Each entity stores the `BaseModel` fields (`id`, `created_at`,
`updated_at`) plus its own attributes.  Attribute slots have type `Value`
because the generic `BaseModel.update` writes unvalidated payload values
into them via `setattr`. -/

structure User where
  id : String
  created_at : Nat
  updated_at : Nat
  first_name : Value
  last_name : Value
  email : Value
  password : Value
  is_admin : Value
  place_ids : Value
  review_ids : Value

structure Place where
  id : String
  created_at : Nat
  updated_at : Nat
  owner_id : Value
  title : Value
  description : Value
  price : Value
  latitude : Value
  longitude : Value
  review_ids : Value
  amenity_ids : Value

structure Review where
  id : String
  created_at : Nat
  updated_at : Nat
  user_id : Value
  place_id : Value
  rating : Value
  text : Value

structure Amenity where
  id : String
  created_at : Nat
  updated_at : Nat
  name : Value

/-! ## Repositories and system state -/

/-- `InMemoryRepository._storage`: a dict keyed by id, insertion-ordered. -/
abbrev Repo (α : Type) := List (String × α)

def repoGet {α : Type} (r : Repo α) (k : String) : Option α :=
  (r.find? (fun kv => kv.1 == k)).map (fun kv => kv.2)

/-- Replace the stored object for a key known to be present (the model of
mutating an object aliased by the store). -/
def repoSet {α : Type} (r : Repo α) (k : String) (a : α) : Repo α :=
  r.map (fun kv => if kv.1 == k then (k, a) else kv)

/-- `add(obj)`: `self._storage[obj.id] = obj` (replaces on collision,
appends otherwise). -/
def repoAdd {α : Type} (r : Repo α) (k : String) (a : α) : Repo α :=
  if r.any (fun kv => kv.1 == k) then repoSet r k a else r ++ [(k, a)]

def repoAll {α : Type} (r : Repo α) : List α :=
  r.map (fun kv => kv.2)

def repoDelete {α : Type} (r : Repo α) (k : String) : Repo α :=
  r.filter (fun kv => !(kv.1 == k))

/-- `repo.get` applied to an arbitrary payload value used as a key: the
storage is keyed by strings, so a non-string never matches. -/
def repoGetV {α : Type} (r : Repo α) (v : Value) : Option α :=
  match v with
  | .str k => repoGet r k
  | _ => Option.none

/-- The whole system: the four repositories of `HBnBFacade.__init__`,
plus the uuid4 supply counter and the wall clock (`ts` is the value
`datetime.now()` would return at its `tick`-th call). -/
structure Sys where
  ts : Nat → Nat
  tick : Nat
  nextId : Nat
  users : Repo User
  places : Repo Place
  reviews : Repo Review
  amenities : Repo Amenity

def Sys.now (s : Sys) : Nat × Sys :=
  (s.ts s.tick, { s with tick := s.tick + 1 })

def Sys.freshId (s : Sys) : String × Sys :=
  (uuidOf s.nextId, { s with nextId := s.nextId + 1 })

def sysInit (ts : Nat → Nat) : Sys :=
  { ts := ts, tick := 0, nextId := 0, users := [], places := [], reviews := [], amenities := [] }

/-- `BaseModel.__init__`: a fresh uuid4 string, then `created_at` and
`updated_at` from two consecutive `datetime.now()` calls. -/
def baseInit (s : Sys) : (String × Nat × Nat) × Sys :=
  let (i, s1) := s.freshId
  let (t1, s2) := s1.now
  let (t2, s3) := s2.now
  ((i, t1, t2), s3)

/-- The three fields `BaseModel.update` refuses to overwrite. -/
def protectedBase : List String := ["id", "created_at", "updated_at"]

/-! ## `BaseModel.update`, specialized per entity

`for key, value in data.items(): if hasattr(self, key) and key not in
protected_fields: setattr(self, key, value)`, then `save()` refreshes
`updated_at`.  `hasattr` is decided by the entity's attribute set. -/

def userSetAttr (u : User) (k : String) (v : Value) : User :=
  if k == "first_name" then { u with first_name := v }
  else if k == "last_name" then { u with last_name := v }
  else if k == "email" then { u with email := v }
  else if k == "password" then { u with password := v }
  else if k == "is_admin" then { u with is_admin := v }
  else if k == "place_ids" then { u with place_ids := v }
  else if k == "review_ids" then { u with review_ids := v }
  else u

def userApplyUpdate (u : User) (d : Dict) (t : Nat) : User :=
  let u' := d.foldl
    (fun acc kv => if protectedBase.contains kv.1 then acc else userSetAttr acc kv.1 kv.2) u
  { u' with updated_at := t }

def placeSetAttr (p : Place) (k : String) (v : Value) : Place :=
  if k == "owner_id" then { p with owner_id := v }
  else if k == "title" then { p with title := v }
  else if k == "description" then { p with description := v }
  else if k == "price" then { p with price := v }
  else if k == "latitude" then { p with latitude := v }
  else if k == "longitude" then { p with longitude := v }
  else if k == "review_ids" then { p with review_ids := v }
  else if k == "amenity_ids" then { p with amenity_ids := v }
  else p

def placeApplyUpdate (p : Place) (d : Dict) (t : Nat) : Place :=
  let p' := d.foldl
    (fun acc kv => if protectedBase.contains kv.1 then acc else placeSetAttr acc kv.1 kv.2) p
  { p' with updated_at := t }

def reviewSetAttr (r : Review) (k : String) (v : Value) : Review :=
  if k == "user_id" then { r with user_id := v }
  else if k == "place_id" then { r with place_id := v }
  else if k == "rating" then { r with rating := v }
  else if k == "text" then { r with text := v }
  else r

def reviewApplyUpdate (r : Review) (d : Dict) (t : Nat) : Review :=
  let r' := d.foldl
    (fun acc kv => if protectedBase.contains kv.1 then acc else reviewSetAttr acc kv.1 kv.2) r
  { r' with updated_at := t }

def amenitySetAttr (a : Amenity) (k : String) (v : Value) : Amenity :=
  if k == "name" then { a with name := v } else a

def amenityApplyUpdate (a : Amenity) (d : Dict) (t : Nat) : Amenity :=
  let a' := d.foldl
    (fun acc kv => if protectedBase.contains kv.1 then acc else amenitySetAttr acc kv.1 kv.2) a
  { a' with updated_at := t }

/-! ## Entity constructors

Each constructor mirrors the Python `__init__`: keyword binding first
(unexpected or missing keywords raise TypeError), then the validation
pipeline in source order, then `super().__init__()` (which consumes the
uuid supply and two clock ticks), then the attribute assignments.  All
checks placed before `super().__init__()` in the source leave the system
state untouched on failure. -/

def userKwargs : List String := ["first_name", "last_name", "email", "password"]

/-- The checks `User.__init__` performs before `super().__init__()`. -/
def userPre (fn ln em pw : Value) : Except PyError (String × String × String × String) :=
  match fn, ln, em, pw with
  | .str fn, .str ln, .str em, .str pw =>
    let fn := pyStrip fn
    let ln := pyStrip ln
    if fn = "" then .error (.valueErr "First name is required")
    else if fn.data.length > 50 then .error (.valueErr "First name must not exceed 50 characters")
    else if ln = "" then .error (.valueErr "Last name is required")
    else if ln.data.length > 50 then .error (.valueErr "Last name must not exceed 50 characters")
    else if em = "" then .error (.valueErr "Email is required")
    else if pw = "" then .error (.valueErr "Password is required")
    else .ok (fn, ln, em, pw)
  | _, _, _, _ => .error (.typeErr "Invalid data: all fields must be strings")

/-- `User(**data)`.  Note that `_validate_email` and `_validate_password`
run after `super().__init__()` in the source, so a format failure there
happens with the id/clock supply already consumed. -/
def userNew (d : Dict) (s : Sys) : Except PyError User × Sys :=
  if ¬ d.all (fun kv => userKwargs.contains kv.1) then
    (.error (.typeErr "unexpected keyword argument"), s)
  else
    match userPre ((dGet d "first_name").getD (.str "")) ((dGet d "last_name").getD (.str ""))
        ((dGet d "email").getD (.str "")) ((dGet d "password").getD (.str "")) with
    | .error e => (.error e, s)
    | .ok (fn, ln, em, pw) =>
      let ((i, t1, t2), s3) := baseInit s
      match validEmailCtor em with
      | .error e => (.error e, s3)
      | .ok em' =>
        match validPasswordCtor pw with
        | .error e => (.error e, s3)
        | .ok pw' =>
          (.ok { id := i, created_at := t1, updated_at := t2,
                 first_name := .str fn, last_name := .str ln, email := .str em',
                 password := .str pw', is_admin := .bool false,
                 place_ids := .list [], review_ids := .list [] }, s3)

def placeKwargs : List String :=
  ["owner_id", "title", "description", "price", "latitude", "longitude", "amenities"]

/-- First-error validation of an amenities list in `Place.__init__`
(string check then uuid check, id by id). -/
def validAmenList : List Value → Except PyError Unit
  | [] => .ok ()
  | v :: rest =>
    match v with
    | .str a =>
      if pyUuidOk a then validAmenList rest
      else .error (.valueErr "amenity_id must be a valid UUID")
    | _ => .error (.typeErr "Each amenity id must be a string")

/-- The validation pipeline of `Place.__init__` (everything before
`super().__init__()`). -/
def placePre (ow ti de pr la lo am : Value) :
    Except PyError (String × String × String × Rat × Rat × Rat × List Value) :=
  match ow with
  | .str ow =>
    if ¬ pyUuidOk ow then .error (.valueErr "owner_id must be a valid UUID")
    else
      match ti with
      | .str ti =>
        let ti := pyStrip ti
        if ti = "" then .error (.valueErr "Title cannot be empty")
        else if ti.data.length > 100 then .error (.valueErr "Title must be at most 100 characters")
        else
          let deE : Except PyError String :=
            match de with
            | .none => .ok ""
            | .str t => .ok (pyStrip t)
            | _ => .error (.typeErr "Description must be a string")
          match deE with
          | .error e => .error e
          | .ok de =>
            match numVal pr with
            | Option.none => .error (.typeErr "Price must be a number")
            | some pr =>
              if pr ≤ 0 then .error (.valueErr "Price must be positive")
              else
                match numVal la with
                | Option.none => .error (.typeErr "Latitude must be a number")
                | some la =>
                  if la < -90 ∨ la > 90 then
                    .error (.valueErr "Latitude must be between -90 and 90")
                  else
                    match numVal lo with
                    | Option.none => .error (.typeErr "Longitude must be a number")
                    | some lo =>
                      if lo < -180 ∨ lo > 180 then
                        .error (.valueErr "Longitude must be between -180 and 180")
                      else
                        match am with
                        | .none => .ok (ow, ti, de, pr, la, lo, [])
                        | .list vs =>
                          match validAmenList vs with
                          | .error e => .error e
                          | .ok _ => .ok (ow, ti, de, pr, la, lo, vs)
                        | _ => .error (.typeErr "amenities must be a list of UUID strings")
      | _ => .error (.typeErr "Title must be a string")
  | _ => .error (.typeErr "owner_id must be a string")

/-- `Place(**data)` (keyword-only parameters; `owner_id` and `title`
required, the rest defaulted as in the source). -/
def placeNew (d : Dict) (s : Sys) : Except PyError Place × Sys :=
  if ¬ d.all (fun kv => placeKwargs.contains kv.1) then
    (.error (.typeErr "unexpected keyword argument"), s)
  else if ¬ dHas d "owner_id" then
    (.error (.typeErr "missing required keyword-only argument owner_id"), s)
  else if ¬ dHas d "title" then
    (.error (.typeErr "missing required keyword-only argument title"), s)
  else
    match placePre ((dGet d "owner_id").getD (.str "")) ((dGet d "title").getD (.str ""))
        ((dGet d "description").getD (.str "")) ((dGet d "price").getD (.int 0))
        ((dGet d "latitude").getD (.int 0)) ((dGet d "longitude").getD (.int 0))
        ((dGet d "amenities").getD .none) with
    | .error e => (.error e, s)
    | .ok (ow, ti, de, pr, la, lo, vs) =>
      let ((i, t1, t2), s3) := baseInit s
      (.ok { id := i, created_at := t1, updated_at := t2,
             owner_id := .str ow, title := .str ti, description := .str de,
             price := .float pr, latitude := .float la, longitude := .float lo,
             review_ids := .list [], amenity_ids := .list vs }, s3)

def reviewKwargs : List String := ["rating", "text", "user_id", "place_id"]

/-- The validation pipeline of `Review.__init__` (hbnb variant): uuid
checks on both ids, then the rating check `isinstance(rating, int)` —
which is satisfied by Python booleans, whose numeric values 1 and 0 then
meet the range check — then the text check. -/
def reviewPre (ra te ui pi : Value) : Except PyError (Value × Value × Value × String) :=
  match validateUuidVal ui "user_id must be a string" "user_id must be a valid UUID" with
  | .error e => .error e
  | .ok _ =>
    match validateUuidVal pi "place_id must be a string" "place_id must be a valid UUID" with
    | .error e => .error e
    | .ok _ =>
      let raIntQ : Option Int :=
        match ra with
        | .int n => some n
        | .bool b => some (if b then 1 else 0)
        | _ => Option.none
      match raIntQ with
      | Option.none => .error (.typeErr "Rating must be an integer")
      | some n =>
        if n < 1 ∨ n > 5 then .error (.valueErr "Rating must be between 1 and 5")
        else
          match te with
          | .str t =>
            let t := pyStrip t
            if t = "" then .error (.valueErr "Text must not be empty")
            else .ok (ra, ui, pi, t)
          | _ => .error (.typeErr "Text must be a string")

/-- `Review(**data)` (all four keywords required). -/
def reviewNew (d : Dict) (s : Sys) : Except PyError Review × Sys :=
  if ¬ d.all (fun kv => reviewKwargs.contains kv.1) then
    (.error (.typeErr "unexpected keyword argument"), s)
  else if ¬ (dHas d "rating" && dHas d "text" && dHas d "user_id" && dHas d "place_id") then
    (.error (.typeErr "missing required keyword-only argument"), s)
  else
    match reviewPre ((dGet d "rating").getD .none) ((dGet d "text").getD .none)
        ((dGet d "user_id").getD .none) ((dGet d "place_id").getD .none) with
    | .error e => (.error e, s)
    | .ok (ra, ui, pi, t) =>
      let ((i, t1, t2), s3) := baseInit s
      (.ok { id := i, created_at := t1, updated_at := t2,
             user_id := ui, place_id := pi, rating := ra, text := .str t }, s3)

/-- `Amenity(name)`. -/
def amenityNew (nv : Value) (s : Sys) : Except PyError Amenity × Sys :=
  match nv with
  | .str nm =>
    let nm := pyStrip nm
    if nm = "" then (.error (.valueErr "Name cannot be empty"), s)
    else if nm.data.length > 50 then (.error (.valueErr "Name must be 50 characters maximum"), s)
    else
      let ((i, t1, t2), s3) := baseInit s
      (.ok { id := i, created_at := t1, updated_at := t2, name := .str nm }, s3)
  | _ => (.error (.typeErr "Name must be a string"), s)

/-! ## The facade (src/part2/hbnb/app/services/facade.py) -/

def createUser (s : Sys) (d : Dict) : Except PyError User × Sys :=
  match userNew d s with
  | (.error e, s') => (.error e, s')
  | (.ok u, s') => (.ok u, { s' with users := repoAdd s'.users u.id u })

/-- `get_user_by_email`: the attribute scan the facade exposes but never
calls from `create_user` or `update_user`. -/
def getUserByEmail (s : Sys) (e : String) : Option User :=
  (s.users.find? (fun kv => valueEqStr kv.2.email e)).map (fun kv => kv.2)

def forbiddenUser : List String :=
  ["id", "created_at", "updated_at", "is_admin", "place_ids", "review_ids"]

/-- The `first_name` re-validation block of `update_user` (type check,
trim, non-emptiness; the 50-character cap of construction is absent). -/
def vUserFirst (c : Dict) : Except PyError Dict :=
  match dGet c "first_name" with
  | Option.none => .ok c
  | some (.str fn) =>
    let fn := pyStrip fn
    if fn = "" then .error (.valueErr "first_name cannot be empty")
    else .ok (dSet c "first_name" (.str fn))
  | some _ => .error (.typeErr "first_name must be a string")

def vUserLast (c : Dict) : Except PyError Dict :=
  match dGet c "last_name" with
  | Option.none => .ok c
  | some (.str ln) =>
    let ln := pyStrip ln
    if ln = "" then .error (.valueErr "last_name cannot be empty")
    else .ok (dSet c "last_name" (.str ln))
  | some _ => .error (.typeErr "last_name must be a string")

def vUserEmail (c : Dict) : Except PyError Dict :=
  match dGet c "email" with
  | Option.none => .ok c
  | some (.str em) =>
    let em := pyLower (pyStrip em)
    if em = "" then .error (.valueErr "email cannot be empty")
    else if ¬ emailRegexOk em then .error (.valueErr "Invalid email format")
    else .ok (dSet c "email" (.str em))
  | some _ => .error (.typeErr "email must be a string")

def updateUser (s : Sys) (uid : String) (d : Dict) : Except PyError (Option User) × Sys :=
  match repoGet s.users uid with
  | Option.none => (.ok Option.none, s)
  | some u =>
    let clean := d.filter (fun kv => !(forbiddenUser.contains kv.1))
    match vUserFirst clean with
    | .error e => (.error e, s)
    | .ok c1 =>
      match vUserLast c1 with
      | .error e => (.error e, s)
      | .ok c2 =>
        match vUserEmail c2 with
        | .error e => (.error e, s)
        | .ok c3 =>
          let (t, s1) := s.now
          let s2 := { s1 with users := repoSet s1.users uid (userApplyUpdate u c3 t) }
          (.ok (repoGet s2.users uid), s2)

def createPlace (s : Sys) (d : Dict) : Except PyError Place × Sys :=
  match dGet d "owner_id" with
  | Option.none => (.error (.keyErr "owner_id"), s)
  | some ov =>
    if (repoGetV s.users ov).isNone then (.error (.valueErr "Owner not found"), s)
    else
      match placeNew d s with
      | (.error e, s') => (.error e, s')
      | (.ok p, s') => (.ok p, { s' with places := repoAdd s'.places p.id p })

/-- `Place.add_amenity_id`: string check, uuid check, then append if not
already present.  The non-list fallback mirrors Python raising TypeError
when `in` is applied to a non-container; it is unreachable from the
facade, which always resets `amenity_ids` to a list first. -/
def addAmenityId (p : Place) (v : Value) : Except PyError Place :=
  match v with
  | .str a =>
    if pyUuidOk a then
      match p.amenity_ids with
      | .list l =>
        if l.any (fun w => valueEqStr w a) then .ok p
        else .ok { p with amenity_ids := .list (l ++ [.str a]) }
      | _ => .error (.typeErr "argument is not iterable")
    else .error (.valueErr "amenity_id must be a valid UUID")
  | _ => .error (.typeErr "amenity_id must be a string")

/-- The id-by-id loop of the amenities block: on failure the partially
rebuilt place (already visible through the repository alias) is carried
in the error. -/
def amenFold (p : Place) : List Value → Except (PyError × Place) Place
  | [] => .ok p
  | v :: rest =>
    match addAmenityId p v with
    | .error e => .error (e, p)
    | .ok p' => amenFold p' rest

/-- The amenities block of `update_place`: when the payload has a
non-None `amenities` entry, check it is a list (before any mutation),
then wholesale-replace `amenity_ids` and re-add id by id. -/
def amenBlock (p : Place) (d : Dict) : Except (PyError × Place) Place :=
  match dGet d "amenities" with
  | Option.none => .ok p
  | some .none => .ok p
  | some (.list vs) => amenFold { p with amenity_ids := .list [] } vs
  | some _ => .error (.typeErr "amenities must be a list of UUID strings", p)

def forbiddenPlace : List String := ["id", "created_at", "updated_at", "owner_id"]

def vPlaceTitle (c : Dict) : Except PyError Dict :=
  match dGet c "title" with
  | Option.none => .ok c
  | some (.str ti) =>
    let ti := pyStrip ti
    if ti = "" then .error (.valueErr "Title cannot be empty")
    else if ti.data.length > 100 then .error (.valueErr "Title must be at most 100 characters")
    else .ok (dSet c "title" (.str ti))
  | some _ => .error (.typeErr "Title must be a string")

def vPlaceDescription (c : Dict) : Except PyError Dict :=
  match dGet c "description" with
  | Option.none => .ok c
  | some .none => .ok (dSet c "description" (.str ""))
  | some (.str de) => .ok (dSet c "description" (.str (pyStrip de)))
  | some _ => .error (.typeErr "Description must be a string")

def vPlacePrice (c : Dict) : Except PyError Dict :=
  match dGet c "price" with
  | Option.none => .ok c
  | some v =>
    match numVal v with
    | Option.none => .error (.typeErr "Price must be a number")
    | some q =>
      if q ≤ 0 then .error (.valueErr "Price must be positive")
      else .ok (dSet c "price" (.float q))

def vPlaceLatitude (c : Dict) : Except PyError Dict :=
  match dGet c "latitude" with
  | Option.none => .ok c
  | some v =>
    match numVal v with
    | Option.none => .error (.typeErr "Latitude must be a number")
    | some q =>
      if q < -90 ∨ q > 90 then .error (.valueErr "Latitude must be between -90 and 90")
      else .ok (dSet c "latitude" (.float q))

def vPlaceLongitude (c : Dict) : Except PyError Dict :=
  match dGet c "longitude" with
  | Option.none => .ok c
  | some v =>
    match numVal v with
    | Option.none => .error (.typeErr "Longitude must be a number")
    | some q =>
      if q < -180 ∨ q > 180 then .error (.valueErr "Longitude must be between -180 and 180")
      else .ok (dSet c "longitude" (.float q))

/-- The per-field re-validation chain of `update_place` (title,
description, price, latitude, longitude — in source order). -/
def vPlaceFields (c : Dict) : Except PyError Dict :=
  match vPlaceTitle c with
  | .error e => .error e
  | .ok c1 =>
    match vPlaceDescription c1 with
    | .error e => .error e
    | .ok c2 =>
      match vPlacePrice c2 with
      | .error e => .error e
      | .ok c3 =>
        match vPlaceLatitude c3 with
        | .error e => .error e
        | .ok c4 => vPlaceLongitude c4

def updatePlace (s : Sys) (pid : String) (d : Dict) : Except PyError (Option Place) × Sys :=
  match repoGet s.places pid with
  | Option.none => (.ok Option.none, s)
  | some p =>
    match amenBlock p d with
    | .error (e, pPart) => (.error e, { s with places := repoSet s.places pid pPart })
    | .ok p1 =>
      let s1 := { s with places := repoSet s.places pid p1 }
      let clean := d.filter (fun kv => !(forbiddenPlace.contains kv.1))
      match vPlaceFields clean with
      | .error e => (.error e, s1)
      | .ok c5 =>
        let (t, s2) := s1.now
        let s3 := { s2 with places := repoSet s2.places pid (placeApplyUpdate p1 c5 t) }
        (.ok (repoGet s3.places pid), s3)

def createReview (s : Sys) (d : Dict) : Except PyError Review × Sys :=
  match dGet d "user_id" with
  | Option.none => (.error (.keyErr "user_id"), s)
  | some uv =>
    if (repoGetV s.users uv).isNone then (.error (.valueErr "User not found"), s)
    else
      match dGet d "place_id" with
      | Option.none => (.error (.keyErr "place_id"), s)
      | some pv =>
        if (repoGetV s.places pv).isNone then (.error (.valueErr "Place not found"), s)
        else
          match reviewNew d s with
          | (.error e, s') => (.error e, s')
          | (.ok rv, s') => (.ok rv, { s' with reviews := repoAdd s'.reviews rv.id rv })

def getReviewsByPlace (s : Sys) (pid : String) : List Review :=
  (repoAll s.reviews).filter (fun r => valueEqStr r.place_id pid)

def forbiddenReview : List String := ["id", "created_at", "updated_at", "user_id", "place_id"]

def vRevText (c : Dict) : Except PyError Dict :=
  match dGet c "text" with
  | Option.none => .ok c
  | some (.str t) =>
    let t := pyStrip t
    if t = "" then .error (.valueErr "Text cannot be empty")
    else .ok (dSet c "text" (.str t))
  | some _ => .error (.typeErr "Text must be a string")

/-- The rating check of `update_review`: here booleans are explicitly
excluded (`isinstance(rating, bool)` raises TypeError). -/
def vRevRating (v : Value) : Except PyError Int :=
  match v with
  | .int n =>
    if n < 1 ∨ n > 5 then .error (.valueErr "Rating must be between 1 and 5")
    else .ok n
  | _ => .error (.typeErr "Rating must be an integer")

/-- `update_review`.  Faithful to the source indentation: the repository
write and the `return` statement sit inside the `if rating in clean_data`
branch, so a payload without a rating key stores nothing and the function
falls through, returning Python `None` (modelled as `.ok Option.none`). -/
def updateReview (s : Sys) (rid : String) (d : Dict) : Except PyError (Option Review) × Sys :=
  match repoGet s.reviews rid with
  | Option.none => (.ok Option.none, s)
  | some r =>
    let clean := d.filter (fun kv => !(forbiddenReview.contains kv.1))
    match vRevText clean with
    | .error e => (.error e, s)
    | .ok c1 =>
      match dGet c1 "rating" with
      | Option.none => (.ok Option.none, s)
      | some rv =>
        match vRevRating rv with
        | .error e => (.error e, s)
        | .ok n =>
          let c2 := dSet c1 "rating" (.int n)
          let (t, s1) := s.now
          let s2 := { s1 with reviews := repoSet s1.reviews rid (reviewApplyUpdate r c2 t) }
          (.ok (repoGet s2.reviews rid), s2)

def deleteReview (s : Sys) (rid : String) : Except PyError (Option Bool) × Sys :=
  match repoGet s.reviews rid with
  | Option.none => (.ok Option.none, s)
  | some _ => (.ok (some true), { s with reviews := repoDelete s.reviews rid })

def createAmenity (s : Sys) (d : Dict) : Except PyError Amenity × Sys :=
  match dGet d "name" with
  | Option.none => (.error (.valueErr "name is required"), s)
  | some nv =>
    match amenityNew nv s with
    | (.error e, s') => (.error e, s')
    | (.ok a, s') => (.ok a, { s' with amenities := repoAdd s'.amenities a.id a })

/-- `update_amenity`: requires `name` in the payload, re-validates its
format, but writes the original (unnormalized) payload values through
the generic update. -/
def updateAmenity (s : Sys) (aid : String) (d : Dict) : Except PyError (Option Amenity) × Sys :=
  match repoGet s.amenities aid with
  | Option.none => (.ok Option.none, s)
  | some a =>
    match dGet d "name" with
    | Option.none => (.error (.valueErr "name is required"), s)
    | some (.str nm) =>
      let nm := pyStrip nm
      if nm = "" then (.error (.valueErr "Name cannot be empty"), s)
      else if nm.data.length > 50 then (.error (.valueErr "Name must be 50 characters maximum"), s)
      else
        let clean := d.filter (fun kv => !(protectedBase.contains kv.1))
        let (t, s1) := s.now
        let s2 := { s1 with amenities := repoSet s1.amenities aid (amenityApplyUpdate a clean t) }
        (.ok (repoGet s2.amenities aid), s2)
    | some _ => (.error (.typeErr "Name must be a string"), s)

/-! ## Reachability: all facade operations, starting from a fresh facade -/

inductive Op where
  | mkUser (d : Dict)
  | modUser (uid : String) (d : Dict)
  | mkPlace (d : Dict)
  | modPlace (pid : String) (d : Dict)
  | mkReview (d : Dict)
  | modReview (rid : String) (d : Dict)
  | delReview (rid : String)
  | mkAmenity (d : Dict)
  | modAmenity (aid : String) (d : Dict)

def applyOp (s : Sys) : Op → Sys
  | .mkUser d => (createUser s d).2
  | .modUser uid d => (updateUser s uid d).2
  | .mkPlace d => (createPlace s d).2
  | .modPlace pid d => (updatePlace s pid d).2
  | .mkReview d => (createReview s d).2
  | .modReview rid d => (updateReview s rid d).2
  | .delReview rid => (deleteReview s rid).2
  | .mkAmenity d => (createAmenity s d).2
  | .modAmenity aid d => (updateAmenity s aid d).2

def runOps (ts : Nat → Nat) (l : List Op) : Sys :=
  l.foldl applyOp (sysInit ts)

/-- A facade state reachable by some sequence of facade calls under some
wall clock. -/
def Reachable (s : Sys) : Prop :=
  ∃ ts l, s = runOps ts l

/-! ## Freshness of the uuid supply -/

theorem ofHexChar_hexChar {k : Nat} (h : k < 16) : ofHexChar (hexChar k) = k := by
  interval_cases k <;> decide

theorem unhex_shift (l : List Char) (a : Nat) :
    l.foldl (fun a c => 16 * a + ofHexChar c) a = a * 16 ^ l.length + unhexList l := by
  induction l generalizing a with
  | nil => simp [unhexList]
  | cons c l ih =>
    simp only [List.foldl_cons, List.length_cons, unhexList] at *
    rw [ih, ih (16 * 0 + ofHexChar c)]
    ring

theorem unhex_hexw (w n : Nat) :
    unhexList ((List.range w).map fun i => hexChar (n / 16 ^ (w - 1 - i) % 16)) = n % 16 ^ w := by
  induction w generalizing n with
  | zero => simp [unhexList, Nat.mod_one]
  | succ w ih =>
    rw [List.range_succ_eq_map]
    simp only [List.map_cons, List.map_map]
    have hmap : ((List.range w).map ((fun i => hexChar (n / 16 ^ (w + 1 - 1 - i) % 16)) ∘ (· + 1)))
        = (List.range w).map fun i => hexChar (n / 16 ^ (w - 1 - i) % 16) := by
      apply List.map_congr_left
      intro i _
      simp only [Function.comp]
      have he : w + 1 - 1 - (i + 1) = w - 1 - i := by omega
      rw [he]
    rw [hmap]
    simp only [unhexList, List.foldl_cons]
    rw [unhex_shift]
    have hlen : ((List.range w).map fun i => hexChar (n / 16 ^ (w - 1 - i) % 16)).length = w := by
      simp
    rw [hlen]
    have hd : ofHexChar (hexChar (n / 16 ^ (w + 1 - 1 - 0) % 16)) = n / 16 ^ w % 16 := by
      have he : w + 1 - 1 - 0 = w := by omega
      rw [he]
      exact ofHexChar_hexChar (Nat.mod_lt _ (by norm_num))
    rw [Nat.mul_zero, Nat.zero_add, hd]
    show n / 16 ^ w % 16 * 16 ^ w + unhexList _ = n % 16 ^ (w + 1)
    rw [ih, pow_succ, Nat.mod_mul]
    ring

theorem hexChar_ne_dash {k : Nat} (h : k < 16) : hexChar k ≠ '-' := by
  interval_cases k <;> decide

theorem mem_hex32_ne_dash {n : Nat} {c : Char} (h : c ∈ hex32 n) : (c != '-') = true := by
  simp only [hex32, List.mem_map] at h
  obtain ⟨i, _, rfl⟩ := h
  simpa using hexChar_ne_dash (Nat.mod_lt _ (by norm_num))

theorem take_drop_chain (l : List Char) :
    l.take 8 ++ ((l.drop 8).take 4 ++ ((l.drop 12).take 4 ++
      ((l.drop 16).take 4 ++ l.drop 20))) = l := by
  have h3 : (l.drop 16).take 4 ++ l.drop 20 = l.drop 16 := by
    have he : l.drop 20 = (l.drop 16).drop 4 := by
      rw [List.drop_drop]
    rw [he, List.take_append_drop]
  have h2 : (l.drop 12).take 4 ++ l.drop 16 = l.drop 12 := by
    have he : l.drop 16 = (l.drop 12).drop 4 := by
      rw [List.drop_drop]
    rw [he, List.take_append_drop]
  have h1 : (l.drop 8).take 4 ++ l.drop 12 = l.drop 8 := by
    have he : l.drop 12 = (l.drop 8).drop 4 := by
      rw [List.drop_drop]
    rw [he, List.take_append_drop]
  rw [h3, h2, h1, List.take_append_drop]

theorem filter_uuidChars (n : Nat) :
    (uuidChars n).filter (fun c => c != '-') = hex32 n := by
  have hsub : ∀ l : List Char, (∀ c ∈ l, c ∈ hex32 n) →
      l.filter (fun c => c != '-') = l := by
    intro l hl
    exact List.filter_eq_self.mpr fun c hc => mem_hex32_ne_dash (hl c hc)
  have h8 := hsub ((hex32 n).take 8) (fun c hc => List.mem_of_mem_take hc)
  have h12 := hsub (((hex32 n).drop 8).take 4)
    (fun c hc => List.mem_of_mem_drop (List.mem_of_mem_take hc))
  have h16 := hsub (((hex32 n).drop 12).take 4)
    (fun c hc => List.mem_of_mem_drop (List.mem_of_mem_take hc))
  have h20 := hsub (((hex32 n).drop 16).take 4)
    (fun c hc => List.mem_of_mem_drop (List.mem_of_mem_take hc))
  have h32 := hsub ((hex32 n).drop 20) (fun c hc => List.mem_of_mem_drop hc)
  simp only [uuidChars, List.filter_append, List.filter_cons]
  norm_num
  rw [h8, h12, h16, h20, h32]
  exact take_drop_chain (hex32 n)

theorem uuidDecode_uuidOf {n : Nat} (h : n < 16 ^ 32) : uuidDecode (uuidOf n) = n := by
  show unhexList (((uuidChars n)).filter (fun c => c != '-')) = n
  rw [filter_uuidChars]
  show unhexList ((List.range 32).map fun i => hexChar (n / 16 ^ (32 - 1 - i) % 16)) = n
  rw [unhex_hexw 32 n]
  exact Nat.mod_eq_of_lt h

theorem uuidOf_inj {m n : Nat} (hm : m < 16 ^ 32) (hn : n < 16 ^ 32)
    (h : uuidOf m = uuidOf n) : m = n := by
  have := congrArg uuidDecode h
  rwa [uuidDecode_uuidOf hm, uuidDecode_uuidOf hn] at this

/-! ## Repository and dictionary lemmas -/

theorem repoGet_cons_of_pos {α : Type} {kv : String × α} {rest : Repo α} {k : String}
    (h : (kv.1 == k) = true) : repoGet (kv :: rest) k = some kv.2 := by
  simp [repoGet, List.find?_cons, h]

theorem repoGet_cons_of_neg {α : Type} {kv : String × α} {rest : Repo α} {k : String}
    (h : (kv.1 == k) = false) : repoGet (kv :: rest) k = repoGet rest k := by
  simp [repoGet, List.find?_cons, h]

theorem repoSet_cons {α : Type} (kv : String × α) (rest : Repo α) (k : String) (a : α) :
    repoSet (kv :: rest) k a = (if kv.1 == k then (k, a) else kv) :: repoSet rest k a := rfl

theorem repoGet_repoSet_self {α : Type} (r : Repo α) (k : String) (a : α)
    (h : (repoGet r k).isSome) : repoGet (repoSet r k a) k = some a := by
  induction r with
  | nil => simp [repoGet] at h
  | cons kv rest ih =>
    by_cases hk : kv.1 = k
    · have h1 : (kv.1 == k) = true := beq_iff_eq.mpr hk
      rw [repoSet_cons, if_pos h1, repoGet_cons_of_pos (by simp)]
    · have h1 : (kv.1 == k) = false := beq_eq_false_iff_ne.mpr hk
      have hh : (repoGet rest k).isSome := by
        rwa [repoGet_cons_of_neg h1] at h
      rw [repoSet_cons, if_neg (by simp [h1]), repoGet_cons_of_neg h1]
      exact ih hh

theorem repoGet_repoSet_ne {α : Type} (r : Repo α) (k k' : String) (a : α)
    (h : k' ≠ k) : repoGet (repoSet r k a) k' = repoGet r k' := by
  induction r with
  | nil => rfl
  | cons kv rest ih =>
    by_cases hk : kv.1 = k
    · have h1 : (kv.1 == k) = true := beq_iff_eq.mpr hk
      have h2 : (k == k') = false := beq_eq_false_iff_ne.mpr (Ne.symm h)
      have h3 : (kv.1 == k') = false := by
        rw [hk]
        exact h2
      rw [repoSet_cons, if_pos h1, repoGet_cons_of_neg h2, repoGet_cons_of_neg h3]
      exact ih
    · have h1 : (kv.1 == k) = false := beq_eq_false_iff_ne.mpr hk
      by_cases hx : kv.1 = k'
      · have h3 : (kv.1 == k') = true := beq_iff_eq.mpr hx
        rw [repoSet_cons, if_neg (by simp [h1]), repoGet_cons_of_pos h3,
          repoGet_cons_of_pos h3]
      · have h3 : (kv.1 == k') = false := beq_eq_false_iff_ne.mpr hx
        rw [repoSet_cons, if_neg (by simp [h1]), repoGet_cons_of_neg h3,
          repoGet_cons_of_neg h3]
        exact ih

theorem repoGet_isSome_of_eq {α : Type} {r : Repo α} {k : String} {a : α}
    (h : repoGet r k = some a) : (repoGet r k).isSome := by
  simp [h]

theorem mem_repoAll_repoSet {α : Type} {r : Repo α} {k : String} {a b : α}
    (h : b ∈ repoAll (repoSet r k a)) : b = a ∨ b ∈ repoAll r := by
  simp only [repoAll, repoSet, List.map_map, List.mem_map] at h
  obtain ⟨kv, hkv, hb⟩ := h
  simp only [Function.comp] at hb
  by_cases hk : (kv.1 == k) = true
  · simp [hk] at hb
    exact Or.inl hb.symm
  · simp [Bool.of_not_eq_true hk] at hb
    exact Or.inr (by simpa [repoAll, hb] using List.mem_map_of_mem (fun kv => kv.2) hkv)

theorem mem_repoAll_repoAdd {α : Type} {r : Repo α} {k : String} {a b : α}
    (h : b ∈ repoAll (repoAdd r k a)) : b = a ∨ b ∈ repoAll r := by
  simp only [repoAdd] at h
  by_cases hc : r.any (fun kv => kv.1 == k) = true
  · rw [if_pos hc] at h
    exact mem_repoAll_repoSet h
  · rw [if_neg hc] at h
    simp only [repoAll, List.map_append, List.mem_append, List.map_cons, List.map_nil,
      List.mem_cons] at h
    rcases h with h | h
    · exact Or.inr h
    · simp at h
      exact Or.inl h

theorem mem_repoAll_repoDelete {α : Type} {r : Repo α} {k : String} {b : α}
    (h : b ∈ repoAll (repoDelete r k)) : b ∈ repoAll r := by
  simp only [repoAll, repoDelete, List.mem_map] at *
  obtain ⟨kv, hkv, hb⟩ := h
  exact ⟨kv, List.mem_of_mem_filter hkv, hb⟩

/-- No entry of `d` has key `k`. -/
def NoKey (d : Dict) (k : String) : Prop := ∀ kv ∈ d, kv.1 ≠ k

theorem noKey_filter_forbidden {d : Dict} {fb : List String} {k : String}
    (h : fb.contains k = true) :
    NoKey (d.filter (fun kv => !(fb.contains kv.1))) k := by
  intro kv hkv he
  have := List.of_mem_filter hkv
  rw [he] at this
  simp at this
  exact this (by simpa using h)

theorem noKey_dSet {d : Dict} {k k' : String} {v : Value}
    (hd : NoKey d k) (hne : k' ≠ k) : NoKey (dSet d k' v) k := by
  intro kv hkv
  simp only [dSet, List.mem_map] at hkv
  obtain ⟨kw, hkw, hkv⟩ := hkv
  by_cases hc : (kw.1 == k') = true
  · rw [if_pos hc] at hkv
    rw [← hkv]
    exact hne
  · rw [if_neg hc] at hkv
    rw [← hkv]
    exact hd kw hkw

/-! ## Shape lemmas: the amenities block touches only `amenity_ids` -/

theorem addAmenityId_shape {p : Place} {v : Value} {p' : Place}
    (h : addAmenityId p v = .ok p') : ∃ am, p' = { p with amenity_ids := am } := by
  unfold addAmenityId at h
  cases v with
  | str a =>
    dsimp only at h
    by_cases hu : pyUuidOk a = true
    · rw [if_pos hu] at h
      cases ham : p.amenity_ids with
      | list l =>
        rw [ham] at h
        dsimp only at h
        by_cases hm : l.any (fun w => valueEqStr w a) = true
        · rw [if_pos hm] at h
          injection h with h
          exact ⟨p.amenity_ids, by rw [← h]⟩
        · rw [if_neg hm] at h
          injection h with h
          exact ⟨.list (l ++ [.str a]), h.symm⟩
      | str u => rw [ham] at h; exact absurd h (by simp)
      | int n => rw [ham] at h; exact absurd h (by simp)
      | float q => rw [ham] at h; exact absurd h (by simp)
      | bool b => rw [ham] at h; exact absurd h (by simp)
      | none => rw [ham] at h; exact absurd h (by simp)
    · rw [if_neg hu] at h
      exact absurd h (by simp)
  | int n => exact absurd h (by simp)
  | float q => exact absurd h (by simp)
  | bool b => exact absurd h (by simp)
  | none => exact absurd h (by simp)
  | list vs => exact absurd h (by simp)

theorem amenFold_shape_ok : ∀ (vs : List Value) (p p' : Place),
    amenFold p vs = .ok p' → ∃ am, p' = { p with amenity_ids := am } := by
  intro vs
  induction vs with
  | nil =>
    intro p p' h
    injection h with h
    exact ⟨p.amenity_ids, by rw [← h]⟩
  | cons v rest ih =>
    intro p p' h
    unfold amenFold at h
    cases ha : addAmenityId p v with
    | error e => rw [ha] at h; exact absurd h (by simp)
    | ok p1 =>
      rw [ha] at h
      obtain ⟨am1, h1⟩ := addAmenityId_shape ha
      obtain ⟨am2, h2⟩ := ih p1 p' h
      exact ⟨am2, by rw [h2, h1]⟩

theorem amenFold_shape_err : ∀ (vs : List Value) (p : Place) (e : PyError) (pP : Place),
    amenFold p vs = .error (e, pP) → ∃ am, pP = { p with amenity_ids := am } := by
  intro vs
  induction vs with
  | nil =>
    intro p e pP h
    exact absurd h (by simp [amenFold])
  | cons v rest ih =>
    intro p e pP h
    unfold amenFold at h
    cases ha : addAmenityId p v with
    | error e1 =>
      rw [ha] at h
      injection h with h
      injection h with h1 h2
      exact ⟨p.amenity_ids, by rw [← h2]⟩
    | ok p1 =>
      rw [ha] at h
      obtain ⟨am1, h1⟩ := addAmenityId_shape ha
      obtain ⟨am2, h2⟩ := ih p1 e pP h
      exact ⟨am2, by rw [h2, h1]⟩

theorem amenBlock_shape_ok {p : Place} {d : Dict} {p1 : Place}
    (h : amenBlock p d = .ok p1) : ∃ am, p1 = { p with amenity_ids := am } := by
  unfold amenBlock at h
  split at h
  · injection h with h
    exact ⟨p.amenity_ids, by rw [← h]⟩
  · injection h with h
    exact ⟨p.amenity_ids, by rw [← h]⟩
  · obtain ⟨am, ham⟩ := amenFold_shape_ok _ _ _ h
    exact ⟨am, ham⟩
  · exact absurd h (by simp)

theorem amenBlock_shape_err {p : Place} {d : Dict} {e : PyError} {pP : Place}
    (h : amenBlock p d = .error (e, pP)) : ∃ am, pP = { p with amenity_ids := am } := by
  unfold amenBlock at h
  split at h
  · exact absurd h (by simp)
  · exact absurd h (by simp)
  · obtain ⟨am, h2⟩ := amenFold_shape_err _ _ _ _ h
    exact ⟨am, h2⟩
  · injection h with h
    injection h with h1 h2
    exact ⟨p.amenity_ids, by rw [← h2]⟩

/-! ## Field preservation through the generic `setattr` update -/

theorem placeSetAttr_id (p : Place) (k : String) (v : Value) :
    (placeSetAttr p k v).id = p.id := by
  unfold placeSetAttr
  split_ifs <;> rfl

theorem placeSetAttr_created (p : Place) (k : String) (v : Value) :
    (placeSetAttr p k v).created_at = p.created_at := by
  unfold placeSetAttr
  split_ifs <;> rfl

theorem placeSetAttr_owner {k : String} (p : Place) (v : Value) (hk : k ≠ "owner_id") :
    (placeSetAttr p k v).owner_id = p.owner_id := by
  unfold placeSetAttr
  split_ifs with h1 <;> first
    | rfl
    | exact absurd (beq_iff_eq.mp h1) hk

theorem placeSetAttr_review {k : String} (p : Place) (v : Value) (hk : k ≠ "review_ids") :
    (placeSetAttr p k v).review_ids = p.review_ids := by
  unfold placeSetAttr
  split_ifs with h1 h2 h3 h4 h5 h6 h7 <;> first
    | rfl
    | exact absurd (beq_iff_eq.mp h7) hk

def placeStep : Place → String × Value → Place :=
  fun acc kv => if protectedBase.contains kv.1 then acc else placeSetAttr acc kv.1 kv.2

theorem foldl_place_id : ∀ (d : Dict) (p : Place), (d.foldl placeStep p).id = p.id := by
  intro d
  induction d with
  | nil => intro p; rfl
  | cons kv rest ih =>
    intro p
    rw [List.foldl_cons, ih]
    unfold placeStep
    by_cases hc : protectedBase.contains kv.1 = true
    · rw [if_pos hc]
    · rw [if_neg hc]
      exact placeSetAttr_id p kv.1 kv.2

theorem foldl_place_created : ∀ (d : Dict) (p : Place),
    (d.foldl placeStep p).created_at = p.created_at := by
  intro d
  induction d with
  | nil => intro p; rfl
  | cons kv rest ih =>
    intro p
    rw [List.foldl_cons, ih]
    unfold placeStep
    by_cases hc : protectedBase.contains kv.1 = true
    · rw [if_pos hc]
    · rw [if_neg hc]
      exact placeSetAttr_created p kv.1 kv.2

theorem foldl_place_owner : ∀ (d : Dict) (p : Place), NoKey d "owner_id" →
    (d.foldl placeStep p).owner_id = p.owner_id := by
  intro d
  induction d with
  | nil => intro p _; rfl
  | cons kv rest ih =>
    intro p hnk
    rw [List.foldl_cons, ih _ (fun kw hkw => hnk kw (List.mem_cons_of_mem kv hkw))]
    unfold placeStep
    by_cases hc : protectedBase.contains kv.1 = true
    · rw [if_pos hc]
    · rw [if_neg hc]
      exact placeSetAttr_owner p kv.2 (hnk kv (List.mem_cons_self kv rest))

theorem foldl_place_review : ∀ (d : Dict) (p : Place), NoKey d "review_ids" →
    (d.foldl placeStep p).review_ids = p.review_ids := by
  intro d
  induction d with
  | nil => intro p _; rfl
  | cons kv rest ih =>
    intro p hnk
    rw [List.foldl_cons, ih _ (fun kw hkw => hnk kw (List.mem_cons_of_mem kv hkw))]
    unfold placeStep
    by_cases hc : protectedBase.contains kv.1 = true
    · rw [if_pos hc]
    · rw [if_neg hc]
      exact placeSetAttr_review p kv.2 (hnk kv (List.mem_cons_self kv rest))

theorem placeApplyUpdate_id (p : Place) (d : Dict) (t : Nat) :
    (placeApplyUpdate p d t).id = p.id :=
  foldl_place_id d p

theorem placeApplyUpdate_created (p : Place) (d : Dict) (t : Nat) :
    (placeApplyUpdate p d t).created_at = p.created_at :=
  foldl_place_created d p

theorem placeApplyUpdate_updated (p : Place) (d : Dict) (t : Nat) :
    (placeApplyUpdate p d t).updated_at = t := rfl

theorem placeApplyUpdate_owner (p : Place) (d : Dict) (t : Nat) (h : NoKey d "owner_id") :
    (placeApplyUpdate p d t).owner_id = p.owner_id :=
  foldl_place_owner d p h

theorem placeApplyUpdate_review (p : Place) (d : Dict) (t : Nat) (h : NoKey d "review_ids") :
    (placeApplyUpdate p d t).review_ids = p.review_ids :=
  foldl_place_review d p h

theorem userSetAttr_place_ids {k : String} (u : User) (v : Value) (hk : k ≠ "place_ids") :
    (userSetAttr u k v).place_ids = u.place_ids := by
  unfold userSetAttr
  split_ifs with h1 h2 h3 h4 h5 h6 <;> first
    | rfl
    | exact absurd (beq_iff_eq.mp h6) hk

theorem userSetAttr_review_ids {k : String} (u : User) (v : Value) (hk : k ≠ "review_ids") :
    (userSetAttr u k v).review_ids = u.review_ids := by
  unfold userSetAttr
  split_ifs with h1 h2 h3 h4 h5 h6 h7 <;> first
    | rfl
    | exact absurd (beq_iff_eq.mp h7) hk

def userStep : User → String × Value → User :=
  fun acc kv => if protectedBase.contains kv.1 then acc else userSetAttr acc kv.1 kv.2

theorem foldl_user_lists : ∀ (d : Dict) (u : User),
    NoKey d "place_ids" → NoKey d "review_ids" →
    (d.foldl userStep u).place_ids = u.place_ids ∧
      (d.foldl userStep u).review_ids = u.review_ids := by
  intro d
  induction d with
  | nil => intro u _ _; exact ⟨rfl, rfl⟩
  | cons kv rest ih =>
    intro u hp hr
    have ihr := ih (userStep u kv) (fun kw hkw => hp kw (List.mem_cons_of_mem kv hkw))
      (fun kw hkw => hr kw (List.mem_cons_of_mem kv hkw))
    rw [List.foldl_cons]
    refine ⟨ihr.1.trans ?_, ihr.2.trans ?_⟩
    · unfold userStep
      by_cases hc : protectedBase.contains kv.1 = true
      · rw [if_pos hc]
      · rw [if_neg hc]
        exact userSetAttr_place_ids u kv.2 (hp kv (List.mem_cons_self kv rest))
    · unfold userStep
      by_cases hc : protectedBase.contains kv.1 = true
      · rw [if_pos hc]
      · rw [if_neg hc]
        exact userSetAttr_review_ids u kv.2 (hr kv (List.mem_cons_self kv rest))

theorem userApplyUpdate_lists (u : User) (d : Dict) (t : Nat)
    (hp : NoKey d "place_ids") (hr : NoKey d "review_ids") :
    (userApplyUpdate u d t).place_ids = u.place_ids ∧
      (userApplyUpdate u d t).review_ids = u.review_ids :=
  foldl_user_lists d u hp hr

/-! ## The update-validators only rewrite their own key -/

theorem vUserFirst_shape {c c' : Dict} (h : vUserFirst c = .ok c') :
    c' = c ∨ ∃ v, c' = dSet c "first_name" v := by
  unfold vUserFirst at h
  dsimp only at h
  split at h
  · injection h with h
    exact Or.inl h.symm
  · split at h
    · exact absurd h (by simp)
    · injection h with h
      exact Or.inr ⟨_, h.symm⟩
  · exact absurd h (by simp)

theorem vUserLast_shape {c c' : Dict} (h : vUserLast c = .ok c') :
    c' = c ∨ ∃ v, c' = dSet c "last_name" v := by
  unfold vUserLast at h
  dsimp only at h
  split at h
  · injection h with h
    exact Or.inl h.symm
  · split at h
    · exact absurd h (by simp)
    · injection h with h
      exact Or.inr ⟨_, h.symm⟩
  · exact absurd h (by simp)

theorem vUserEmail_shape {c c' : Dict} (h : vUserEmail c = .ok c') :
    c' = c ∨ ∃ v, c' = dSet c "email" v := by
  unfold vUserEmail at h
  dsimp only at h
  split at h
  · injection h with h
    exact Or.inl h.symm
  · split at h
    · exact absurd h (by simp)
    · split at h
      · exact absurd h (by simp)
      · injection h with h
        exact Or.inr ⟨_, h.symm⟩
  · exact absurd h (by simp)

theorem vPlaceTitle_shape {c c' : Dict} (h : vPlaceTitle c = .ok c') :
    c' = c ∨ ∃ v, c' = dSet c "title" v := by
  unfold vPlaceTitle at h
  dsimp only at h
  split at h
  · injection h with h
    exact Or.inl h.symm
  · split at h
    · exact absurd h (by simp)
    · split at h
      · exact absurd h (by simp)
      · injection h with h
        exact Or.inr ⟨_, h.symm⟩
  · exact absurd h (by simp)

theorem vPlaceDescription_shape {c c' : Dict} (h : vPlaceDescription c = .ok c') :
    c' = c ∨ ∃ v, c' = dSet c "description" v := by
  unfold vPlaceDescription at h
  split at h
  · injection h with h
    exact Or.inl h.symm
  · injection h with h
    exact Or.inr ⟨_, h.symm⟩
  · injection h with h
    exact Or.inr ⟨_, h.symm⟩
  · exact absurd h (by simp)

theorem vPlacePrice_shape {c c' : Dict} (h : vPlacePrice c = .ok c') :
    c' = c ∨ ∃ v, c' = dSet c "price" v := by
  unfold vPlacePrice at h
  split at h
  · injection h with h
    exact Or.inl h.symm
  · split at h
    · exact absurd h (by simp)
    · split at h
      · exact absurd h (by simp)
      · injection h with h
        exact Or.inr ⟨_, h.symm⟩

theorem vPlaceLatitude_shape {c c' : Dict} (h : vPlaceLatitude c = .ok c') :
    c' = c ∨ ∃ v, c' = dSet c "latitude" v := by
  unfold vPlaceLatitude at h
  split at h
  · injection h with h
    exact Or.inl h.symm
  · split at h
    · exact absurd h (by simp)
    · split at h
      · exact absurd h (by simp)
      · injection h with h
        exact Or.inr ⟨_, h.symm⟩

theorem vPlaceLongitude_shape {c c' : Dict} (h : vPlaceLongitude c = .ok c') :
    c' = c ∨ ∃ v, c' = dSet c "longitude" v := by
  unfold vPlaceLongitude at h
  split at h
  · injection h with h
    exact Or.inl h.symm
  · split at h
    · exact absurd h (by simp)
    · split at h
      · exact absurd h (by simp)
      · injection h with h
        exact Or.inr ⟨_, h.symm⟩

/-- Transfer of key-absence through an optional single-key rewrite. -/
theorem noKey_of_shape {c c' : Dict} {k k' : String}
    (hs : c' = c ∨ ∃ v, c' = dSet c k' v) (hn : NoKey c k) (hne : k' ≠ k) :
    NoKey c' k := by
  rcases hs with rfl | ⟨v, rfl⟩
  · exact hn
  · exact noKey_dSet hn hne

theorem vPlaceFields_noKey {c c5 : Dict} {k : String} (h : vPlaceFields c = .ok c5)
    (hn : NoKey c k) (h1 : "title" ≠ k) (h2 : "description" ≠ k) (h3 : "price" ≠ k)
    (h4 : "latitude" ≠ k) (h5 : "longitude" ≠ k) : NoKey c5 k := by
  unfold vPlaceFields at h
  cases hv1 : vPlaceTitle c with
  | error e => rw [hv1] at h; exact absurd h (by simp)
  | ok c1 =>
    rw [hv1] at h
    dsimp only at h
    cases hv2 : vPlaceDescription c1 with
    | error e => rw [hv2] at h; exact absurd h (by simp)
    | ok c2 =>
      rw [hv2] at h
      dsimp only at h
      cases hv3 : vPlacePrice c2 with
      | error e => rw [hv3] at h; exact absurd h (by simp)
      | ok c3 =>
        rw [hv3] at h
        dsimp only at h
        cases hv4 : vPlaceLatitude c3 with
        | error e => rw [hv4] at h; exact absurd h (by simp)
        | ok c4 =>
          rw [hv4] at h
          dsimp only at h
          have k1 := noKey_of_shape (vPlaceTitle_shape hv1) hn h1
          have k2 := noKey_of_shape (vPlaceDescription_shape hv2) k1 h2
          have k3 := noKey_of_shape (vPlacePrice_shape hv3) k2 h3
          have k4 := noKey_of_shape (vPlaceLatitude_shape hv4) k3 h4
          exact noKey_of_shape (vPlaceLongitude_shape h) k4 h5

/-- C8: for every stored Place and every `update_place` payload carrying
an `owner_id` key, the call leaves every stored Place's `owner_id`, `id`
and `created_at` exactly as before, and `updated_at` is either untouched
or refreshed from the clock — never taken from the payload. -/
theorem updatePlace_protected_fields (s : Sys) (pid : String) (d : Dict)
    (hod : dHas d "owner_id" = true) (k : String) (p : Place)
    (hk : repoGet s.places k = some p) :
    ∃ p', repoGet ((updatePlace s pid d).2).places k = some p' ∧
      p'.owner_id = p.owner_id ∧ p'.id = p.id ∧ p'.created_at = p.created_at ∧
      (p'.updated_at = p.updated_at ∨ p'.updated_at = s.ts s.tick) := by
  cases hrg : repoGet s.places pid with
  | none =>
    simp only [updatePlace, hrg]
    exact ⟨p, hk, rfl, rfl, rfl, Or.inl rfl⟩
  | some p0 =>
    cases hab : amenBlock p0 d with
    | error ep =>
      obtain ⟨e, pP⟩ := ep
      simp only [updatePlace, hrg, hab]
      by_cases hkp : k = pid
      · subst hkp
        rw [hk] at hrg
        injection hrg with hrg
        subst hrg
        obtain ⟨am, rfl⟩ := amenBlock_shape_err hab
        exact ⟨_, repoGet_repoSet_self _ _ _ (repoGet_isSome_of_eq hk),
          rfl, rfl, rfl, Or.inl rfl⟩
      · exact ⟨p, by rw [repoGet_repoSet_ne _ _ _ _ hkp]; exact hk,
          rfl, rfl, rfl, Or.inl rfl⟩
    | ok p1 =>
      cases hvf : vPlaceFields (d.filter (fun kv => !(forbiddenPlace.contains kv.1))) with
      | error e =>
        simp only [updatePlace, hrg, hab, hvf]
        by_cases hkp : k = pid
        · subst hkp
          rw [hk] at hrg
          injection hrg with hrg
          subst hrg
          obtain ⟨am, rfl⟩ := amenBlock_shape_ok hab
          exact ⟨_, repoGet_repoSet_self _ _ _ (repoGet_isSome_of_eq hk),
            rfl, rfl, rfl, Or.inl rfl⟩
        · exact ⟨p, by rw [repoGet_repoSet_ne _ _ _ _ hkp]; exact hk,
            rfl, rfl, rfl, Or.inl rfl⟩
      | ok c5 =>
        simp only [updatePlace, hrg, hab, hvf, Sys.now]
        have hnk : NoKey c5 "owner_id" :=
          vPlaceFields_noKey hvf (noKey_filter_forbidden (by decide))
            (by decide) (by decide) (by decide) (by decide) (by decide)
        by_cases hkp : k = pid
        · subst hkp
          rw [hk] at hrg
          injection hrg with hrg
          subst hrg
          obtain ⟨am, hsh⟩ := amenBlock_shape_ok hab
          have hpres1 : (repoGet (repoSet s.places k p1) k).isSome := by
            rw [repoGet_repoSet_self _ _ _ (repoGet_isSome_of_eq hk)]
            rfl
          refine ⟨placeApplyUpdate p1 c5 (s.ts s.tick),
            repoGet_repoSet_self _ _ _ hpres1, ?_, ?_, ?_, Or.inr ?_⟩
          · rw [placeApplyUpdate_owner _ _ _ hnk, hsh]
          · rw [placeApplyUpdate_id, hsh]
          · rw [placeApplyUpdate_created, hsh]
          · exact placeApplyUpdate_updated _ _ _
        · refine ⟨p, ?_, rfl, rfl, rfl, Or.inl rfl⟩
          rw [repoGet_repoSet_ne _ _ _ _ hkp, repoGet_repoSet_ne _ _ _ _ hkp]
          exact hk

/-- C2 (amended): when `update_place` raises, no stored Place changes in
any field other than `amenity_ids` — the amenities replacement, applied
in place before the rest of the validation, is the only partial effect
an error can leave behind. -/
theorem updatePlace_error_frame (s : Sys) (pid : String) (d : Dict) (e : PyError)
    (herr : (updatePlace s pid d).1 = .error e) (k : String) (p : Place)
    (hk : repoGet s.places k = some p) :
    ∃ p', repoGet ((updatePlace s pid d).2).places k = some p' ∧
      p'.id = p.id ∧ p'.created_at = p.created_at ∧ p'.updated_at = p.updated_at ∧
      p'.owner_id = p.owner_id ∧ p'.title = p.title ∧ p'.description = p.description ∧
      p'.price = p.price ∧ p'.latitude = p.latitude ∧ p'.longitude = p.longitude ∧
      p'.review_ids = p.review_ids := by
  cases hrg : repoGet s.places pid with
  | none =>
    rw [updatePlace] at herr
    simp only [hrg] at herr
    exact absurd herr (by simp)
  | some p0 =>
    cases hab : amenBlock p0 d with
    | error ep =>
      obtain ⟨e1, pP⟩ := ep
      simp only [updatePlace, hrg, hab]
      by_cases hkp : k = pid
      · subst hkp
        rw [hk] at hrg
        injection hrg with hrg
        subst hrg
        obtain ⟨am, rfl⟩ := amenBlock_shape_err hab
        exact ⟨_, repoGet_repoSet_self _ _ _ (repoGet_isSome_of_eq hk),
          rfl, rfl, rfl, rfl, rfl, rfl, rfl, rfl, rfl, rfl⟩
      · exact ⟨p, by rw [repoGet_repoSet_ne _ _ _ _ hkp]; exact hk,
          rfl, rfl, rfl, rfl, rfl, rfl, rfl, rfl, rfl, rfl⟩
    | ok p1 =>
      cases hvf : vPlaceFields (d.filter (fun kv => !(forbiddenPlace.contains kv.1))) with
      | error e2 =>
        simp only [updatePlace, hrg, hab, hvf]
        by_cases hkp : k = pid
        · subst hkp
          rw [hk] at hrg
          injection hrg with hrg
          subst hrg
          obtain ⟨am, rfl⟩ := amenBlock_shape_ok hab
          exact ⟨_, repoGet_repoSet_self _ _ _ (repoGet_isSome_of_eq hk),
            rfl, rfl, rfl, rfl, rfl, rfl, rfl, rfl, rfl, rfl⟩
        · exact ⟨p, by rw [repoGet_repoSet_ne _ _ _ _ hkp]; exact hk,
            rfl, rfl, rfl, rfl, rfl, rfl, rfl, rfl, rfl, rfl⟩
      | ok c5 =>
        rw [updatePlace] at herr
        simp only [hrg, hab, hvf, Sys.now] at herr
        exact absurd herr (by simp)

/-! ## Concrete scenario states shared by the instance proofs -/

/-- A strictly increasing wall clock. -/
def egTs : Nat → Nat := fun k => k

def egPayUser : Dict :=
  [("first_name", .str "Ann"), ("last_name", .str "Bee"),
   ("email", .str "Dup@X.com "), ("password", .str "Abc123")]

/-- One user stored (id `uuidOf 0`). -/
def egS1 : Sys := (createUser (sysInit egTs) egPayUser).2

def egUuidA : String := "aaaaaaaa-aaaa-aaaa-aaaa-aaaaaaaaaaaa"

def egUuidB : String := "bbbbbbbb-bbbb-bbbb-bbbb-bbbbbbbbbbbb"

def egPayPlace : Dict :=
  [("owner_id", .str (uuidOf 0)), ("title", .str "Home"), ("price", .int 5),
   ("amenities", .list [.str egUuidA])]

/-- One user and one place (id `uuidOf 1`, amenity list `[egUuidA]`)
stored; the amenity repository is empty. -/
def egS3 : Sys := (createPlace egS1 egPayPlace).2

/-- The place stored in `egS3` (timestamps 2 and 3: the user consumed
clock ticks 0 and 1). -/
def egPlace : Place :=
  { id := uuidOf 1, created_at := 2, updated_at := 3,
    owner_id := .str (uuidOf 0), title := .str "Home", description := .str "",
    price := .float 5, latitude := .float 0, longitude := .float 0,
    review_ids := .list [], amenity_ids := .list [.str egUuidA] }

theorem egS3_place : repoGet egS3.places (uuidOf 1) = some egPlace := rfl

/-- An update payload whose amenities list fails validation at its second
element (an int), after the first element was already applied. -/
def egPayBad : Dict := [("amenities", .list [.str egUuidB, .int 42])]

/-- C2 counterexample: `update_place` raises on the second amenity id,
yet the stored Place now carries the half-applied amenity list
`[egUuidB]` instead of its previous `[egUuidA]` — the claim that a
failed update leaves the Place exactly as before is false. -/
theorem updatePlace_not_atomic_cx :
    (updatePlace egS3 (uuidOf 1) egPayBad).1 = .error (.typeErr "amenity_id must be a string") ∧
    (repoGet egS3.places (uuidOf 1)).map Place.amenity_ids = some (.list [.str egUuidA]) ∧
    (repoGet ((updatePlace egS3 (uuidOf 1) egPayBad).2).places (uuidOf 1)).map Place.amenity_ids
      = some (.list [.str egUuidB]) ∧
    (Value.list [.str egUuidB]) ≠ (Value.list [.str egUuidA]) :=
  ⟨rfl, rfl, rfl, by simp [egUuidA, egUuidB]⟩

/-- Instance of `updatePlace_error_frame` at the concrete failing call. -/
theorem updatePlace_error_frame_witness :
    ∃ p', repoGet ((updatePlace egS3 (uuidOf 1) egPayBad).2).places (uuidOf 1) = some p' ∧
      p'.id = egPlace.id ∧ p'.created_at = egPlace.created_at ∧
      p'.updated_at = egPlace.updated_at ∧ p'.owner_id = egPlace.owner_id ∧
      p'.title = egPlace.title ∧ p'.description = egPlace.description ∧
      p'.price = egPlace.price ∧ p'.latitude = egPlace.latitude ∧
      p'.longitude = egPlace.longitude ∧ p'.review_ids = egPlace.review_ids :=
  updatePlace_error_frame egS3 (uuidOf 1) egPayBad (.typeErr "amenity_id must be a string")
    rfl (uuidOf 1) egPlace rfl

/-- Instance of `updatePlace_protected_fields`: an update payload
carrying `owner_id` leaves the stored owner unchanged. -/
theorem updatePlace_protected_fields_witness :
    ∃ p', repoGet ((updatePlace egS3 (uuidOf 1)
        [("owner_id", .str egUuidB), ("title", .str "New")]).2).places (uuidOf 1) = some p' ∧
      p'.owner_id = egPlace.owner_id ∧ p'.id = egPlace.id ∧
      p'.created_at = egPlace.created_at ∧
      (p'.updated_at = egPlace.updated_at ∨ p'.updated_at = egS3.ts egS3.tick) :=
  updatePlace_protected_fields egS3 (uuidOf 1)
    [("owner_id", .str egUuidB), ("title", .str "New")] rfl (uuidOf 1) egPlace rfl

/-! ## C1: email uniqueness -/

def egOpsDup : List Op := [Op.mkUser egPayUser, Op.mkUser egPayUser]

/-- The facade state after creating two users with the same email. -/
def egSdup : Sys := runOps egTs egOpsDup

/-- C1 counterexample: a reachable facade state stores two distinct
Users (different ids) with the same normalized email, and the second
`create_user` call succeeded rather than producing a conflict — the
facade performs no uniqueness scan. -/
theorem email_uniqueness_cx :
    Reachable egSdup ∧
    (createUser egS1 egPayUser).1.toOption.isSome = true ∧
    (repoAll egSdup.users).map User.email = [.str "dup@x.com", .str "dup@x.com"] ∧
    (repoAll egSdup.users).map User.id = [uuidOf 0, uuidOf 1] ∧
    uuidOf 0 ≠ uuidOf 1 :=
  ⟨⟨egTs, egOpsDup, rfl⟩, rfl, rfl, rfl, by decide⟩

/-- C1 (amended): `create_user` never consults the stored users — its
outcome is the same whatever the user repository holds, so a duplicate
email is accepted exactly like a fresh one (no conflict outcome exists
in the facade; `get_user_by_email` is exposed for callers only). -/
theorem createUser_ignores_existing_users (s : Sys) (us : Repo User) (d : Dict) :
    (createUser { s with users := us } d).1 = (createUser s d).1 := by
  unfold createUser userNew baseInit Sys.freshId Sys.now
  by_cases hall : d.all (fun kv => userKwargs.contains kv.1) = true
  · simp only [hall]
    cases hp : userPre ((dGet d "first_name").getD (.str "")) ((dGet d "last_name").getD (.str ""))
        ((dGet d "email").getD (.str "")) ((dGet d "password").getD (.str "")) with
    | error e => simp [hp]
    | ok quad =>
      obtain ⟨fn, ln, em, pw⟩ := quad
      simp only [hp]
      cases hve : validEmailCtor em with
      | error e => simp [hve]
      | ok em1 =>
        cases hvp : validPasswordCtor pw with
        | error e => simp [hve, hvp]
        | ok pw1 => simp [hve, hvp]
  · rw [if_pos hall, if_pos hall]

/-! ## C3: update re-validation -/

/-- The user stored in `egS1`. -/
def egUser : User :=
  { id := uuidOf 0, created_at := 0, updated_at := 1,
    first_name := .str "Ann", last_name := .str "Bee", email := .str "dup@x.com",
    password := .str "Abc123", is_admin := .bool false,
    place_ids := .list [], review_ids := .list [] }

theorem egS1_user : repoGet egS1.users (uuidOf 0) = some egUser := rfl

/-- C3 counterexample: updating a stored user with the one-character
password `"x"` — which violates every construction rule — succeeds and
overwrites the stored password; no validation error is raised. -/
theorem update_password_unvalidated_cx :
    (updateUser egS1 (uuidOf 0) [("password", .str "x")]).1.toOption.map
      (Option.map User.password) = some (some (.str "x")) ∧
    (repoGet ((updateUser egS1 (uuidOf 0) [("password", .str "x")]).2).users (uuidOf 0)).map
      User.password = some (.str "x") ∧
    validPasswordCtor "x" =
      .error (.valueErr "Password is too short: it must contain at least 6 characters") :=
  ⟨rfl, rfl, rfl⟩

/-- C3 (amended): `update_user` re-validates `first_name`, `last_name`
and `email`, but a `password` value passes the forbidden-field filter
without any validation and is written verbatim — whatever it is — to the
stored user. -/
theorem updateUser_password_passthrough (s : Sys) (uid : String) (u0 : User) (pw : Value)
    (h : repoGet s.users uid = some u0) :
    ∃ u', (updateUser s uid [("password", pw)]).1 = .ok (some u') ∧ u'.password = pw ∧
      repoGet ((updateUser s uid [("password", pw)]).2).users uid = some u' := by
  have hset : repoGet (repoSet s.users uid
      (userApplyUpdate u0 [("password", pw)] (s.ts s.tick))) uid =
      some (userApplyUpdate u0 [("password", pw)] (s.ts s.tick)) :=
    repoGet_repoSet_self _ _ _ (repoGet_isSome_of_eq h)
  unfold updateUser
  rw [h]
  refine ⟨userApplyUpdate u0 [("password", pw)] (s.ts s.tick), ?_, rfl, ?_⟩
  · rw [← hset]
    rfl
  · exact hset

theorem updateUser_password_passthrough_witness :
    ∃ u', (updateUser egS1 (uuidOf 0) [("password", .str "x")]).1 = .ok (some u') ∧
      u'.password = .str "x" ∧
      repoGet ((updateUser egS1 (uuidOf 0) [("password", .str "x")]).2).users (uuidOf 0)
        = some u' :=
  updateUser_password_passthrough egS1 (uuidOf 0) egUser (.str "x") rfl

/-! ## C4: amenity ids are never checked against the amenity repository -/

theorem placeNew_frame (d : Dict) (s : Sys) (am : Repo Amenity) :
    (placeNew d { s with amenities := am }).1 = (placeNew d s).1 ∧
    (placeNew d { s with amenities := am }).2 = { (placeNew d s).2 with amenities := am } := by
  unfold placeNew baseInit Sys.freshId Sys.now
  by_cases h1 : (d.all fun kv => placeKwargs.contains kv.1) = true
  · simp only [h1]
    by_cases h2 : dHas d "owner_id" = true
    · simp only [h2]
      by_cases h3 : dHas d "title" = true
      · simp only [h3]
        cases hp : placePre ((dGet d "owner_id").getD (.str "")) ((dGet d "title").getD (.str ""))
            ((dGet d "description").getD (.str "")) ((dGet d "price").getD (.int 0))
            ((dGet d "latitude").getD (.int 0)) ((dGet d "longitude").getD (.int 0))
            ((dGet d "amenities").getD .none) with
        | error e => simp [hp]
        | ok sep =>
          obtain ⟨ow, ti, de, pr, la, lo, vs⟩ := sep
          simp [hp]
      · rw [if_pos h3, if_pos h3]
        exact ⟨rfl, rfl⟩
    · rw [if_pos h2, if_pos h2]
      exact ⟨rfl, rfl⟩
  · rw [if_pos h1, if_pos h1]
    exact ⟨rfl, rfl⟩

/-- C4 (amended): amenity ids are validated only for string type and
UUID format — neither `create_place` nor `update_place` ever consults
the amenity repository, so their outcomes and the resulting place store
are identical whatever amenities are stored (in particular, ids with no
stored Amenity are accepted). -/
theorem amenity_ids_never_checked (s : Sys) (am : Repo Amenity) (pid : String) (d : Dict) :
    ((createPlace { s with amenities := am } d).1 = (createPlace s d).1 ∧
      ((createPlace { s with amenities := am } d).2).places = ((createPlace s d).2).places) ∧
    ((updatePlace { s with amenities := am } pid d).1 = (updatePlace s pid d).1 ∧
      ((updatePlace { s with amenities := am } pid d).2).places
        = ((updatePlace s pid d).2).places) := by
  constructor
  · cases hov : dGet d "owner_id" with
    | none => simp [createPlace, hov]
    | some ov =>
      simp only [createPlace, hov]
      by_cases hu : (repoGetV s.users ov).isNone = true
      · simp [hu]
      · simp only [hu, Bool.false_eq_true, if_false]
        obtain ⟨h1, h2⟩ := placeNew_frame d s am
        cases hpn : placeNew d s with
        | mk r s' =>
          rw [hpn] at h1 h2
          cases r with
          | error e =>
            simp only [hpn, h1, h2]
            cases hpn2 : placeNew d { s with amenities := am } with
            | mk r2 s2 =>
              rw [hpn2] at h1 h2
              cases r2 with
              | error e2 => simp_all
              | ok p2 => simp_all
          | ok p =>
            cases hpn2 : placeNew d { s with amenities := am } with
            | mk r2 s2 =>
              rw [hpn2] at h1 h2
              cases r2 with
              | error e2 => simp_all
              | ok p2 =>
                simp only at h1
                injection h1 with h1
                subst h1
                subst h2
                simp [hpn, hpn2]
  · cases hrg : repoGet s.places pid with
    | none => simp [updatePlace, hrg]
    | some p0 =>
      simp only [updatePlace, hrg]
      cases hab : amenBlock p0 d with
      | error ep =>
        obtain ⟨e, pP⟩ := ep
        simp [hab]
      | ok p1 =>
        cases hvf : vPlaceFields (d.filter (fun kv => !(forbiddenPlace.contains kv.1))) with
        | error e => simp [hab, hvf]
        | ok c5 => simp [hab, hvf, Sys.now]

def egOpsPlace : List Op := [Op.mkUser egPayUser, Op.mkPlace egPayPlace]

/-- C4 counterexample: a reachable state stores a Place whose
`amenity_ids` contains `egUuidA` although the amenity repository is and
has always been empty — the id was added without any stored Amenity, and
`create_place` succeeded rather than failing. -/
theorem amenity_integrity_cx :
    Reachable egS3 ∧
    (createPlace egS1 egPayPlace).1.toOption.isSome = true ∧
    (repoGet egS3.places (uuidOf 1)).map Place.amenity_ids = some (.list [.str egUuidA]) ∧
    egS3.amenities = [] :=
  ⟨⟨egTs, egOpsPlace, rfl⟩, rfl, rfl, rfl⟩

/-! ## C5: text-only review update is silently dropped -/

def egPayReview : Dict :=
  [("rating", .int 5), ("text", .str "great"), ("user_id", .str (uuidOf 0)),
   ("place_id", .str (uuidOf 1))]

/-- User, place, and one review (id `uuidOf 2`) stored. -/
def egS6 : Sys := (createReview egS3 egPayReview).2

/-- The review stored in `egS6`. -/
def egReview : Review :=
  { id := uuidOf 2, created_at := 4, updated_at := 5,
    user_id := .str (uuidOf 0), place_id := .str (uuidOf 1),
    rating := .int 5, text := .str "great" }

theorem egS6_review : repoGet egS6.reviews (uuidOf 2) = some egReview := rfl

/-- C5: a valid text-only `update_review` call on an existing review
returns the not-found sentinel (Python `None`) and stores nothing — the
repository write and the return statement sit inside the
`if rating in clean_data` branch.  Contrast: the same payload with a
rating key is stored. -/
theorem updateReview_text_only_dropped :
    (createReview egS3 egPayReview).1.toOption.map Review.id = some (uuidOf 2) ∧
    (updateReview egS6 (uuidOf 2) [("text", .str " nice ")]).1 = .ok Option.none ∧
    (updateReview egS6 (uuidOf 2) [("text", .str " nice ")]).2 = egS6 ∧
    (repoGet egS6.reviews (uuidOf 2)).map Review.text = some (.str "great") ∧
    (repoGet ((updateReview egS6 (uuidOf 2)
        [("text", .str " nice "), ("rating", .int 3)]).2).reviews (uuidOf 2)).map Review.text
      = some (.str "nice") :=
  ⟨rfl, rfl, rfl, rfl, rfl⟩

/-! ## C6: boolean ratings -/

def egPayRevTrue : Dict :=
  [("rating", .bool true), ("text", .str "great"), ("user_id", .str egUuidA),
   ("place_id", .str egUuidB)]

def egPayRevFalse : Dict :=
  [("rating", .bool false), ("text", .str "great"), ("user_id", .str egUuidA),
   ("place_id", .str egUuidB)]

/-- C6 counterexample: the constructor accepts `rating=True` (stored as
the boolean) and rejects `rating=False` with a VALUE error, not a type
error — `isinstance(rating, int)` admits booleans. -/
theorem rating_bool_ctor_cx :
    ((reviewNew egPayRevTrue (sysInit egTs)).1.toOption.map Review.rating)
      = some (.bool true) ∧
    (reviewNew egPayRevFalse (sysInit egTs)).1
      = .error (.valueErr "Rating must be between 1 and 5") :=
  ⟨rfl, rfl⟩

/-- C6 (amended): only `update_review` excludes booleans, rejecting any
boolean rating with a TypeError and leaving the state unchanged; the
constructor admits `True` (value 1 passes the range check) and rejects
`False` with a value error. -/
theorem rating_bool_amended :
    (∀ (s : Sys) (rid : String) (r0 : Review) (b : Bool),
      repoGet s.reviews rid = some r0 →
      updateReview s rid [("rating", .bool b)]
        = (.error (.typeErr "Rating must be an integer"), s)) ∧
    ((reviewNew egPayRevTrue (sysInit egTs)).1.toOption.map Review.rating
      = some (.bool true)) ∧
    ((reviewNew egPayRevFalse (sysInit egTs)).1
      = .error (.valueErr "Rating must be between 1 and 5")) := by
  refine ⟨?_, rfl, rfl⟩
  intro s rid r0 b h
  unfold updateReview
  rw [h]
  rfl

theorem rating_bool_amended_witness :
    updateReview egS6 (uuidOf 2) [("rating", .bool true)]
      = (.error (.typeErr "Rating must be an integer"), egS6) :=
  rating_bool_amended.1 egS6 (uuidOf 2) egReview true rfl

/-! ## C7: referential checks of create_review -/

/-- C7: when the payload's `user_id` (or, with the user present, its
`place_id`) names nothing in the corresponding repository,
`create_review` fails with the referential ValueError and the whole
system state — clock and id supply included — is exactly as before: the
Review entity was never constructed and nothing was stored. -/
theorem createReview_referential (s : Sys) (d : Dict) :
    (∀ uv, dGet d "user_id" = some uv → repoGetV s.users uv = Option.none →
      createReview s d = (.error (.valueErr "User not found"), s)) ∧
    (∀ uv u pv, dGet d "user_id" = some uv → repoGetV s.users uv = some u →
      dGet d "place_id" = some pv → repoGetV s.places pv = Option.none →
      createReview s d = (.error (.valueErr "Place not found"), s)) := by
  constructor
  · intro uv h1 h2
    simp [createReview, h1, h2]
  · intro uv u pv h1 h2 h3 h4
    simp [createReview, h1, h2, h3, h4]

def egPayRevGhostUser : Dict :=
  [("rating", .int 5), ("text", .str "great"), ("user_id", .str egUuidB),
   ("place_id", .str (uuidOf 1))]

def egPayRevGhostPlace : Dict :=
  [("rating", .int 5), ("text", .str "great"), ("user_id", .str (uuidOf 0)),
   ("place_id", .str egUuidB)]

theorem createReview_referential_witness :
    createReview egS1 egPayRevGhostUser = (.error (.valueErr "User not found"), egS1) ∧
    createReview egS1 egPayRevGhostPlace = (.error (.valueErr "Place not found"), egS1) :=
  ⟨(createReview_referential egS1 egPayRevGhostUser).1 (.str egUuidB) rfl rfl,
    (createReview_referential egS1 egPayRevGhostPlace).2 (.str (uuidOf 0)) egUser
      (.str egUuidB) rfl rfl rfl rfl⟩

/-! ## C9: creation timestamps and id freshness -/

/-- C9 counterexample: under a clock that advances between the two
`datetime.now()` calls of `BaseModel.__init__` (here the identity
stream), a perfectly valid construction yields `created_at = 0` and
`updated_at = 1` — the two timestamps are not equal. -/
theorem created_updated_unequal_cx :
    ((userNew egPayUser (sysInit egTs)).1.toOption.map User.created_at) = some 0 ∧
    ((userNew egPayUser (sysInit egTs)).1.toOption.map User.updated_at) = some 1 ∧
    (0 : Nat) ≠ 1 :=
  ⟨rfl, rfl, by decide⟩

/-- C9 (amended): the base construction step issues an id distinct from
every previously issued id as long as the 128-bit space is not
exhausted, and with a monotone clock `created_at ≤ updated_at` — the two
fields are read by two consecutive clock calls, so they are equal only
when the clock does not advance in between. -/
theorem baseInit_fresh_and_ordered (s : Sys) (hmono : Monotone s.ts)
    (hbound : s.nextId < 16 ^ 32) :
    (∀ m, m < s.nextId → (baseInit s).1.1 ≠ uuidOf m) ∧
    (baseInit s).1.2.1 ≤ (baseInit s).1.2.2 := by
  constructor
  · intro m hm heq
    have hme : s.nextId = m := uuidOf_inj hbound (hm.trans hbound) heq
    omega
  · exact hmono (Nat.le_succ s.tick)

theorem baseInit_fresh_and_ordered_witness :
    (∀ m, m < (sysInit egTs).nextId → (baseInit (sysInit egTs)).1.1 ≠ uuidOf m) ∧
    (baseInit (sysInit egTs)).1.2.1 ≤ (baseInit (sysInit egTs)).1.2.2 :=
  baseInit_fresh_and_ordered (sysInit egTs) (fun _ _ hab => hab) (by show (0 : Nat) < 16 ^ 32; norm_num)

/-! ## C10: reverse-reference lists -/

theorem userNew_state (d : Dict) (s : Sys) :
    (userNew d s).2.users = s.users ∧ (userNew d s).2.places = s.places := by
  unfold userNew baseInit Sys.freshId Sys.now
  dsimp only
  repeat' split
  all_goals exact ⟨rfl, rfl⟩

theorem userNew_ok_lists {d : Dict} {s : Sys} {u : User} {s' : Sys}
    (h : userNew d s = (.ok u, s')) :
    u.place_ids = Value.list [] ∧ u.review_ids = Value.list [] := by
  unfold userNew baseInit Sys.freshId Sys.now at h
  dsimp only at h
  repeat' split at h
  all_goals injection h with h1 h2
  all_goals first
    | (injection h1
       done)
    | (injection h1 with h1
       rw [← h1]
       exact ⟨rfl, rfl⟩)

theorem placeNew_state (d : Dict) (s : Sys) :
    (placeNew d s).2.users = s.users ∧ (placeNew d s).2.places = s.places := by
  unfold placeNew baseInit Sys.freshId Sys.now
  dsimp only
  repeat' split
  all_goals exact ⟨rfl, rfl⟩

theorem placeNew_ok_review {d : Dict} {s : Sys} {p : Place} {s' : Sys}
    (h : placeNew d s = (.ok p, s')) : p.review_ids = Value.list [] := by
  unfold placeNew baseInit Sys.freshId Sys.now at h
  dsimp only at h
  repeat' split at h
  all_goals injection h with h1 h2
  all_goals first
    | (injection h1
       done)
    | (injection h1 with h1
       rw [← h1])

theorem reviewNew_state (d : Dict) (s : Sys) :
    (reviewNew d s).2.users = s.users ∧ (reviewNew d s).2.places = s.places := by
  unfold reviewNew baseInit Sys.freshId Sys.now
  dsimp only
  repeat' split
  all_goals exact ⟨rfl, rfl⟩

theorem amenityNew_state (nv : Value) (s : Sys) :
    (amenityNew nv s).2.users = s.users ∧ (amenityNew nv s).2.places = s.places := by
  unfold amenityNew baseInit Sys.freshId Sys.now
  dsimp only
  repeat' split
  all_goals exact ⟨rfl, rfl⟩

theorem mem_repoAll_of_repoGet {α : Type} {r : Repo α} {k : String} {a : α}
    (h : repoGet r k = some a) : a ∈ repoAll r := by
  unfold repoGet at h
  cases hf : r.find? (fun kv => kv.1 == k) with
  | none => rw [hf] at h; exact absurd h (by simp)
  | some kv =>
    rw [hf] at h
    injection h with h
    rw [← h]
    exact List.mem_map_of_mem (fun kv => kv.2) (List.mem_of_find?_eq_some hf)

theorem noKey_filter_sub {d : Dict} {f : String × Value → Bool} {k : String}
    (h : NoKey d k) : NoKey (d.filter f) k :=
  fun kv hkv => h kv (List.mem_of_mem_filter hkv)

/-- Users' `place_ids`/`review_ids` are `[]` and Places' `review_ids`
are `[]` — the facade never populates reverse-reference lists. -/
def EmptyRefLists (s : Sys) : Prop :=
  (∀ u ∈ repoAll s.users, u.place_ids = Value.list [] ∧ u.review_ids = Value.list []) ∧
  (∀ p ∈ repoAll s.places, p.review_ids = Value.list [])

/-- Ops whose payload cannot smuggle a `review_ids` overwrite through
the generic update of `update_place` (the one hole: `review_ids` is not
in the Place forbidden set). -/
def BenignOp : Op → Prop
  | Op.modPlace _ d => NoKey d "review_ids"
  | _ => True

theorem createUser_refs (s : Sys) (d : Dict) (hs : EmptyRefLists s) :
    EmptyRefLists ((createUser s d).2) := by
  unfold createUser
  cases hun : userNew d s with
  | mk r s' =>
    have hst := userNew_state d s
    rw [hun] at hst
    cases r with
    | error e => exact ⟨by rw [hst.1]; exact hs.1, by rw [hst.2]; exact hs.2⟩
    | ok u =>
      refine ⟨?_, by rw [hst.2]; exact hs.2⟩
      intro u' hu'
      rcases mem_repoAll_repoAdd hu' with rfl | hu'
      · exact userNew_ok_lists hun
      · rw [hst.1] at hu'
        exact hs.1 u' hu'

theorem createPlace_refs (s : Sys) (d : Dict) (hs : EmptyRefLists s) :
    EmptyRefLists ((createPlace s d).2) := by
  unfold createPlace
  cases hg : dGet d "owner_id" with
  | none => simpa only [hg] using hs
  | some ov =>
    simp only [hg]
    by_cases hu : (repoGetV s.users ov).isNone = true
    · rw [if_pos hu]
      exact hs
    · rw [if_neg hu]
      cases hpn : placeNew d s with
      | mk r s' =>
        have hst := placeNew_state d s
        rw [hpn] at hst
        cases r with
        | error e => exact ⟨by rw [hst.1]; exact hs.1, by rw [hst.2]; exact hs.2⟩
        | ok p =>
          refine ⟨by rw [hst.1]; exact hs.1, ?_⟩
          intro p' hp'
          rcases mem_repoAll_repoAdd hp' with rfl | hp'
          · exact placeNew_ok_review hpn
          · rw [hst.2] at hp'
            exact hs.2 p' hp'

theorem createReview_refs (s : Sys) (d : Dict) (hs : EmptyRefLists s) :
    EmptyRefLists ((createReview s d).2) := by
  unfold createReview
  cases hg1 : dGet d "user_id" with
  | none => simpa only [hg1] using hs
  | some uv =>
    simp only [hg1]
    by_cases hu : (repoGetV s.users uv).isNone = true
    · rw [if_pos hu]
      exact hs
    · rw [if_neg hu]
      cases hg2 : dGet d "place_id" with
      | none => simpa only [hg2] using hs
      | some pv =>
        simp only [hg2]
        by_cases hp : (repoGetV s.places pv).isNone = true
        · rw [if_pos hp]
          exact hs
        · rw [if_neg hp]
          cases hrn : reviewNew d s with
          | mk r s' =>
            have hst := reviewNew_state d s
            rw [hrn] at hst
            cases r with
            | error e => exact ⟨by rw [hst.1]; exact hs.1, by rw [hst.2]; exact hs.2⟩
            | ok rv => exact ⟨by rw [hst.1]; exact hs.1, by rw [hst.2]; exact hs.2⟩

theorem createAmenity_refs (s : Sys) (d : Dict) (hs : EmptyRefLists s) :
    EmptyRefLists ((createAmenity s d).2) := by
  unfold createAmenity
  cases hg : dGet d "name" with
  | none => simpa only [hg] using hs
  | some nv =>
    simp only [hg]
    cases han : amenityNew nv s with
    | mk r s' =>
      have hst := amenityNew_state nv s
      rw [han] at hst
      cases r with
      | error e => exact ⟨by rw [hst.1]; exact hs.1, by rw [hst.2]; exact hs.2⟩
      | ok a => exact ⟨by rw [hst.1]; exact hs.1, by rw [hst.2]; exact hs.2⟩

theorem updateUser_refs (s : Sys) (uid : String) (d : Dict) (hs : EmptyRefLists s) :
    EmptyRefLists ((updateUser s uid d).2) := by
  unfold updateUser
  cases hg : repoGet s.users uid with
  | none => simpa only [hg] using hs
  | some u =>
    simp only [hg]
    cases hv1 : vUserFirst (d.filter (fun kv => !(forbiddenUser.contains kv.1))) with
    | error e => simpa only [hv1] using hs
    | ok c1 =>
      simp only [hv1]
      cases hv2 : vUserLast c1 with
      | error e => simpa only [hv2] using hs
      | ok c2 =>
        simp only [hv2]
        cases hv3 : vUserEmail c2 with
        | error e => simpa only [hv3] using hs
        | ok c3 =>
          simp only [hv3, Sys.now]
          have hp0 : NoKey (d.filter (fun kv => !(forbiddenUser.contains kv.1))) "place_ids" :=
            noKey_filter_forbidden (by decide)
          have hr0 : NoKey (d.filter (fun kv => !(forbiddenUser.contains kv.1))) "review_ids" :=
            noKey_filter_forbidden (by decide)
          have hp1 := noKey_of_shape (vUserFirst_shape hv1) hp0 (by decide)
          have hr1 := noKey_of_shape (vUserFirst_shape hv1) hr0 (by decide)
          have hp2 := noKey_of_shape (vUserLast_shape hv2) hp1 (by decide)
          have hr2 := noKey_of_shape (vUserLast_shape hv2) hr1 (by decide)
          have hp3 := noKey_of_shape (vUserEmail_shape hv3) hp2 (by decide)
          have hr3 := noKey_of_shape (vUserEmail_shape hv3) hr2 (by decide)
          refine ⟨?_, hs.2⟩
          intro u' hu'
          rcases mem_repoAll_repoSet hu' with rfl | hu'
          · have hu0 := hs.1 u (mem_repoAll_of_repoGet hg)
            have hl := userApplyUpdate_lists u c3 (s.ts s.tick) hp3 hr3
            exact ⟨hl.1.trans hu0.1, hl.2.trans hu0.2⟩
          · exact hs.1 u' hu'

theorem updatePlace_refs (s : Sys) (pid : String) (d : Dict) (hb : NoKey d "review_ids")
    (hs : EmptyRefLists s) : EmptyRefLists ((updatePlace s pid d).2) := by
  unfold updatePlace
  cases hrg : repoGet s.places pid with
  | none => simpa only [hrg] using hs
  | some p0 =>
    simp only [hrg]
    have hp0 := hs.2 p0 (mem_repoAll_of_repoGet hrg)
    cases hab : amenBlock p0 d with
    | error ep =>
      obtain ⟨e, pP⟩ := ep
      simp only [hab]
      refine ⟨hs.1, ?_⟩
      intro p' hp'
      rcases mem_repoAll_repoSet hp' with rfl | hp'
      · obtain ⟨am, rfl⟩ := amenBlock_shape_err hab
        exact hp0
      · exact hs.2 p' hp'
    | ok p1 =>
      simp only [hab]
      obtain ⟨am1, hsh⟩ := amenBlock_shape_ok hab
      have hp1 : p1.review_ids = Value.list [] := by
        rw [hsh]
        exact hp0
      cases hvf : vPlaceFields (d.filter (fun kv => !(forbiddenPlace.contains kv.1))) with
      | error e =>
        simp only [hvf]
        refine ⟨hs.1, ?_⟩
        intro p' hp'
        rcases mem_repoAll_repoSet hp' with rfl | hp'
        · exact hp1
        · exact hs.2 p' hp'
      | ok c5 =>
        simp only [hvf, Sys.now]
        have hc5 : NoKey c5 "review_ids" :=
          vPlaceFields_noKey hvf (noKey_filter_sub hb) (by decide) (by decide) (by decide)
            (by decide) (by decide)
        refine ⟨hs.1, ?_⟩
        intro p' hp'
        rcases mem_repoAll_repoSet hp' with rfl | hp'
        · rw [placeApplyUpdate_review _ _ _ hc5]
          exact hp1
        · rcases mem_repoAll_repoSet hp' with rfl | hp'
          · exact hp1
          · exact hs.2 p' hp'

theorem updateReview_refs (s : Sys) (rid : String) (d : Dict) (hs : EmptyRefLists s) :
    EmptyRefLists ((updateReview s rid d).2) := by
  unfold updateReview
  cases hg : repoGet s.reviews rid with
  | none => simpa only [hg] using hs
  | some r =>
    simp only [hg]
    cases hv1 : vRevText (d.filter (fun kv => !(forbiddenReview.contains kv.1))) with
    | error e => simpa only [hv1] using hs
    | ok c1 =>
      simp only [hv1]
      cases hg2 : dGet c1 "rating" with
      | none => simpa only [hg2] using hs
      | some rv =>
        simp only [hg2]
        cases hv2 : vRevRating rv with
        | error e => simpa only [hv2] using hs
        | ok n =>
          simp only [hv2, Sys.now]
          exact hs

theorem deleteReview_refs (s : Sys) (rid : String) (hs : EmptyRefLists s) :
    EmptyRefLists ((deleteReview s rid).2) := by
  unfold deleteReview
  cases hg : repoGet s.reviews rid with
  | none => simpa only [hg] using hs
  | some r => simpa only [hg] using hs

theorem updateAmenity_refs (s : Sys) (aid : String) (d : Dict) (hs : EmptyRefLists s) :
    EmptyRefLists ((updateAmenity s aid d).2) := by
  unfold updateAmenity
  cases hg : repoGet s.amenities aid with
  | none => simpa only [hg] using hs
  | some a =>
    simp only [hg]
    cases hg2 : dGet d "name" with
    | none => simpa only [hg2] using hs
    | some nv =>
      cases nv with
      | str nm =>
        dsimp only
        by_cases h1 : pyStrip nm = ""
        · rw [if_pos h1]
          exact hs
        · rw [if_neg h1]
          by_cases h2 : (pyStrip nm).data.length > 50
          · rw [if_pos h2]
            exact hs
          · rw [if_neg h2]
            exact hs
      | int n => exact hs
      | float q => exact hs
      | bool b => exact hs
      | none => exact hs
      | list vs => exact hs

/-- C10 (amended): the facade itself never populates reverse-reference
lists: starting from a fresh facade, after any sequence of facade calls
in which no `update_place` payload carries a literal `review_ids` key,
every stored User has empty `place_ids` and `review_ids` and every
stored Place has empty `review_ids`.  (The restriction is necessary:
`review_ids` is absent from the Place forbidden set, so a payload can
overwrite it through the generic update — see the counterexample.) -/
theorem facade_no_reverse_refs (ts : Nat → Nat) (ops : List Op)
    (hb : ∀ o ∈ ops, BenignOp o) : EmptyRefLists (runOps ts ops) := by
  have hstep : ∀ (s : Sys) (o : Op), BenignOp o → EmptyRefLists s →
      EmptyRefLists (applyOp s o) := by
    intro s o hbo hs
    cases o with
    | mkUser d => exact createUser_refs s d hs
    | modUser uid d => exact updateUser_refs s uid d hs
    | mkPlace d => exact createPlace_refs s d hs
    | modPlace pid d => exact updatePlace_refs s pid d hbo hs
    | mkReview d => exact createReview_refs s d hs
    | modReview rid d => exact updateReview_refs s rid d hs
    | delReview rid => exact deleteReview_refs s rid hs
    | mkAmenity d => exact createAmenity_refs s d hs
    | modAmenity aid d => exact updateAmenity_refs s aid d hs
  have haux : ∀ (l : List Op) (s : Sys), (∀ o ∈ l, BenignOp o) → EmptyRefLists s →
      EmptyRefLists (l.foldl applyOp s) := by
    intro l
    induction l with
    | nil => intro s _ hs; exact hs
    | cons o rest ih =>
      intro s hbl hs
      rw [List.foldl_cons]
      exact ih _ (fun o' ho' => hbl o' (List.mem_cons_of_mem o ho'))
        (hstep s o (hbl o (List.mem_cons_self o rest)) hs)
  exact haux ops (sysInit ts) hb
    ⟨fun u hu => absurd hu (by simp [repoAll, sysInit]),
      fun p hp => absurd hp (by simp [repoAll, sysInit])⟩

theorem facade_no_reverse_refs_witness : EmptyRefLists (runOps egTs egOpsPlace) := by
  refine facade_no_reverse_refs egTs egOpsPlace ?_
  intro o ho
  simp only [egOpsPlace, List.mem_cons, List.mem_singleton] at ho
  rcases ho with rfl | rfl | h
  · trivial
  · trivial
  · cases h

def egOpsRid : List Op :=
  [Op.mkUser egPayUser, Op.mkPlace egPayPlace,
   Op.modPlace (uuidOf 1) [("review_ids", .list [.str "x"])]]

/-- C10 counterexample: a reachable state (via an `update_place` whose
payload includes `review_ids`, a key absent from the forbidden set)
stores a Place with a non-empty `review_ids` list — the claim that every
stored Place's `review_ids` stays empty after any facade sequence is
false. -/
theorem reverse_refs_cx :
    Reachable (runOps egTs egOpsRid) ∧
    (repoGet (runOps egTs egOpsRid).places (uuidOf 1)).map Place.review_ids
      = some (.list [.str "x"]) ∧
    (Value.list [.str "x"]) ≠ Value.list [] :=
  ⟨⟨egTs, egOpsRid, rfl⟩, rfl, by simp⟩
